import Mathlib

/-!
Shallow embedding of the Gedit "Color Panes" plugin
(`colorpanes/color_panes.py`, trunk version 2.0.0, and the older
version 1.6.0 where noted in namespace `V1`).

Widgets are modelled as finite trees carrying the capability flags the
plugin tests with `hasattr`/`isinstance`; GTK/GConf state that the plugin
reads or writes is modelled as explicit state records.  Colors are
modelled by their GDK descriptor strings (`gtk.gdk.color_parse` becomes
the identity and `Color.to_string` reads the descriptor back).
-/

/-- A GDK color, identified with its descriptor string. -/
abbrev Color := String

/-- Module-level constant `TERMINAL_MATCH_COLORS = True` of the source. -/
def TERMINAL_MATCH_COLORS : Bool := true

/-- Module-level constant `TERMINAL_MATCH_FONT = True` of the source. -/
def TERMINAL_MATCH_FONT : Bool := true

/-- A GTK widget as the plugin sees it: its Python type name, the
capability flags the plugin probes (`hasattr(widget, 'get_children')`,
`isinstance(widget, gtk.Notebook)`, `hasattr(widget, 'modify_text')`,
`hasattr(widget, 'modify_base')`, `hasattr(widget, 'set_color_foreground')`,
`hasattr(widget, 'set_color_background')`), and the list returned by
`get_children()`. -/
inductive Widget where
  | node (typeName : String)
         (has_get_children : Bool)
         (is_notebook : Bool)
         (has_modify_text : Bool)
         (has_modify_base : Bool)
         (has_set_color_foreground : Bool)
         (has_set_color_background : Bool)
         (children : List Widget)

/-- Boolean structural equality on widgets. -/
def wBeq : Widget → Widget → Bool
  | .node tn1 gc1 nb1 mt1 mb1 fg1 bg1 cs1,
    .node tn2 gc2 nb2 mt2 mb2 fg2 bg2 cs2 =>
    tn1 == tn2 && gc1 == gc2 && nb1 == nb2 && mt1 == mt2 && mb1 == mb2 &&
      fg1 == fg2 && bg1 == bg2 && wBeqList cs1 cs2
where
  wBeqList : List Widget → List Widget → Bool
  | [], [] => true
  | c :: cs, d :: ds => wBeq c d && wBeqList cs ds
  | _, _ => false

mutual

theorem wBeq_iff : ∀ (a b : Widget), wBeq a b = true ↔ a = b
  | .node tn1 gc1 nb1 mt1 mb1 fg1 bg1 cs1,
    .node tn2 gc2 nb2 mt2 mb2 fg2 bg2 cs2 => by
    simp only [wBeq, Bool.and_eq_true, beq_iff_eq, Widget.node.injEq,
      wBeqList_iff cs1 cs2]
    tauto

theorem wBeqList_iff : ∀ (l1 l2 : List Widget),
    wBeq.wBeqList l1 l2 = true ↔ l1 = l2
  | [], [] => by simp [wBeq.wBeqList]
  | [], _ :: _ => by simp [wBeq.wBeqList]
  | _ :: _, [] => by simp [wBeq.wBeqList]
  | c :: cs, d :: ds => by
    simp [wBeq.wBeqList, wBeq_iff c d, wBeqList_iff cs ds]

end

instance : DecidableEq Widget :=
  fun a b => decidable_of_iff (wBeq a b = true) (wBeq_iff a b)

namespace Widget

def typeName : Widget → String
  | .node tn _ _ _ _ _ _ _ => tn

def has_get_children : Widget → Bool
  | .node _ gc _ _ _ _ _ _ => gc

def is_notebook : Widget → Bool
  | .node _ _ nb _ _ _ _ _ => nb

def has_modify_text : Widget → Bool
  | .node _ _ _ mt _ _ _ _ => mt

def has_modify_base : Widget → Bool
  | .node _ _ _ _ mb _ _ _ => mb

def has_set_color_foreground : Widget → Bool
  | .node _ _ _ _ _ fg _ _ => fg

def has_set_color_background : Widget → Bool
  | .node _ _ _ _ _ _ bg _ => bg

def children : Widget → List Widget
  | .node _ _ _ _ _ _ _ cs => cs

end Widget

/-- `pat` occurs as a contiguous sublist of `l` (Python's `in` on
strings, on the character lists). -/
def charsContain (pat : List Char) : List Char → Bool
  | [] => pat.isEmpty
  | c :: cs => pat.isPrefixOf (c :: cs) || charsContain pat cs

/-- The widget's Python type name contains the substring `'GeditNotebook'`
(the test `'GeditNotebook' in type(widget).__name__`). -/
def named_gedit_notebook (w : Widget) : Bool :=
  charsContain ("GeditNotebook".toList) w.typeName.toList

/-- The widgets of the tree that the plugin can see: a widget together
with, when it answers `get_children`, everything reachable through its
children.  (A widget without `get_children` exposes no children to the
plugin's searches.) -/
def reachable : Widget → List Widget
  | w@(.node _ gc _ _ _ _ _ cs) =>
    w :: (if gc then reachable_list cs else [])
where
  reachable_list : List Widget → List Widget
  | [] => []
  | c :: cs => reachable c ++ reachable_list cs

/-- `ColorPanesWindowHelper._get_notebooks` (trunk, lines 334–346):
collect every `gtk.Notebook` in the tree whose type name does not contain
`'GeditNotebook'`, recursing through `get_children`. -/
def get_notebooks : Widget → List Widget
  | w@(.node _ gc nb _ _ _ _ cs) =>
    if gc then
      (if nb && !(named_gedit_notebook w) then [w] else [])
        ++ get_notebooks_list cs
    else []
where
  get_notebooks_list : List Widget → List Widget
  | [] => []
  | c :: cs => get_notebooks c ++ get_notebooks_list cs

/-- `ColorPanesWindowHelper._get_widgets_to_color` (trunk, lines 348–358):
collect every widget having both `modify_text` and `modify_base`,
recursing through `get_children`. -/
def get_widgets_to_color : Widget → List Widget
  | w@(.node _ gc _ mt mb _ _ cs) =>
    (if mt && mb then [w] else [])
      ++ (if gc then get_widgets_to_color_list cs else [])
where
  get_widgets_to_color_list : List Widget → List Widget
  | [] => []
  | c :: cs => get_widgets_to_color c ++ get_widgets_to_color_list cs

/-- `ColorPanesWindowHelper._get_terminals` (trunk, lines 360–371):
collect every widget having both `set_color_foreground` and
`set_color_background`, recursing through `get_children`. -/
def get_terminals : Widget → List Widget
  | w@(.node _ gc _ _ _ fg bg cs) =>
    (if fg && bg then [w] else [])
      ++ (if gc then get_terminals_list cs else [])
where
  get_terminals_list : List Widget → List Widget
  | [] => []
  | c :: cs => get_terminals c ++ get_terminals_list cs

theorem self_mem_reachable (w : Widget) : w ∈ reachable w := by
  cases w; simp [reachable]

mutual

theorem mem_get_widgets_to_color : ∀ (w x : Widget),
    x ∈ get_widgets_to_color w ↔
      x ∈ reachable w ∧ x.has_modify_text = true ∧ x.has_modify_base = true
  | .node tn gc nb mt mb fgc bgc cs, x => by
    have hc := mem_get_widgets_to_color_list cs x
    cases hgc : gc <;> cases hmt : mt <;> cases hmb : mb <;>
      simp_all [get_widgets_to_color, reachable,
        Widget.has_modify_text, Widget.has_modify_base] <;>
      aesop

theorem mem_get_widgets_to_color_list : ∀ (cs : List Widget) (x : Widget),
    x ∈ get_widgets_to_color.get_widgets_to_color_list cs ↔
      x ∈ reachable.reachable_list cs ∧
        x.has_modify_text = true ∧ x.has_modify_base = true
  | [], x => by
    simp [get_widgets_to_color.get_widgets_to_color_list, reachable.reachable_list]
  | c :: cs, x => by
    have h1 := mem_get_widgets_to_color c x
    have h2 := mem_get_widgets_to_color_list cs x
    simp only [get_widgets_to_color.get_widgets_to_color_list,
      reachable.reachable_list, List.mem_append, h1, h2]
    tauto

end

mutual

theorem mem_get_terminals : ∀ (w x : Widget),
    x ∈ get_terminals w ↔
      x ∈ reachable w ∧ x.has_set_color_foreground = true ∧
        x.has_set_color_background = true
  | .node tn gc nb mt mb fgc bgc cs, x => by
    have hc := mem_get_terminals_list cs x
    cases hgc : gc <;> cases hfg : fgc <;> cases hbg : bgc <;>
      simp_all [get_terminals, reachable,
        Widget.has_set_color_foreground, Widget.has_set_color_background] <;>
      aesop

theorem mem_get_terminals_list : ∀ (cs : List Widget) (x : Widget),
    x ∈ get_terminals.get_terminals_list cs ↔
      x ∈ reachable.reachable_list cs ∧
        x.has_set_color_foreground = true ∧ x.has_set_color_background = true
  | [], x => by
    simp [get_terminals.get_terminals_list, reachable.reachable_list]
  | c :: cs, x => by
    have h1 := mem_get_terminals c x
    have h2 := mem_get_terminals_list cs x
    simp only [get_terminals.get_terminals_list, reachable.reachable_list,
      List.mem_append, h1, h2]
    tauto

end

/-- Model-side well-formedness: every `gtk.Notebook` is a `gtk.Container`,
so it answers `get_children`. -/
def notebooks_have_children (w : Widget) : Prop :=
  ∀ x ∈ reachable w, x.is_notebook = true → x.has_get_children = true

/-- List form of `notebooks_have_children`. -/
def notebooks_have_children_list (cs : List Widget) : Prop :=
  ∀ x ∈ reachable.reachable_list cs,
    x.is_notebook = true → x.has_get_children = true

mutual

theorem mem_get_notebooks : ∀ (w x : Widget),
    notebooks_have_children w →
      (x ∈ get_notebooks w ↔
        x ∈ reachable w ∧ x.is_notebook = true ∧
          named_gedit_notebook x = false)
  | .node tn gc nb mt mb fgc bgc cs, x => by
    intro hWF
    cases hgc : gc
    · have hnb : nb = false := by
        have h := hWF (Widget.node tn gc nb mt mb fgc bgc cs)
          (self_mem_reachable _)
        cases hn : nb
        · rfl
        · exfalso
          have := h (by simp [Widget.is_notebook, hn])
          simp [Widget.has_get_children, hgc] at this
      subst hgc
      simp [get_notebooks, reachable, Widget.is_notebook, hnb]
      rintro rfl
      simp [Widget.is_notebook, hnb]
    · have hWFcs : notebooks_have_children_list cs := by
        intro y hy
        exact hWF y (by simp [reachable, hgc, hy])
      have hc := mem_get_notebooks_list cs x hWFcs
      cases hnb : nb <;>
        cases hnm : named_gedit_notebook (Widget.node tn gc nb mt mb fgc bgc cs) <;>
        simp_all [get_notebooks, reachable, Widget.is_notebook] <;>
        aesop

theorem mem_get_notebooks_list : ∀ (cs : List Widget) (x : Widget),
    notebooks_have_children_list cs →
      (x ∈ get_notebooks.get_notebooks_list cs ↔
        x ∈ reachable.reachable_list cs ∧ x.is_notebook = true ∧
          named_gedit_notebook x = false)
  | [], x => by
    intro _
    simp [get_notebooks.get_notebooks_list, reachable.reachable_list]
  | c :: cs, x => by
    intro hWF
    have hWFc : notebooks_have_children c := by
      intro y hy
      exact hWF y (by simp [reachable.reachable_list, hy])
    have hWFcs : notebooks_have_children_list cs := by
      intro y hy
      exact hWF y (by simp [reachable.reachable_list, hy])
    have h1 := mem_get_notebooks c x hWFc
    have h2 := mem_get_notebooks_list cs x hWFcs
    simp only [get_notebooks.get_notebooks_list, reachable.reachable_list,
      List.mem_append, h1, h2]
    tauto

end

/-- Depth of a widget tree (1 for a leaf). -/
def depth : Widget → Nat
  | .node _ _ _ _ _ _ _ cs => depth_list cs + 1
where
  depth_list : List Widget → Nat
  | [] => 0
  | c :: cs => max (depth c) (depth_list cs)

/-- Fuel-bounded variant of `_get_notebooks`: refuses to recurse deeper
than `fuel` levels, returning `none` on fuel exhaustion. -/
def get_notebooks_fuel : Nat → Widget → Option (List Widget)
  | 0, _ => none
  | fuel + 1, w@(.node _ gc nb _ _ _ _ cs) =>
    if gc then
      match get_notebooks_fuel_list fuel cs with
      | none => none
      | some rest =>
        some ((if nb && !(named_gedit_notebook w) then [w] else []) ++ rest)
    else some []
where
  get_notebooks_fuel_list : Nat → List Widget → Option (List Widget)
  | _, [] => some []
  | fuel, c :: cs =>
    match get_notebooks_fuel fuel c, get_notebooks_fuel_list fuel cs with
    | some a, some b => some (a ++ b)
    | _, _ => none

/-- Fuel-bounded variant of `_get_widgets_to_color`. -/
def get_widgets_to_color_fuel : Nat → Widget → Option (List Widget)
  | 0, _ => none
  | fuel + 1, w@(.node _ gc _ mt mb _ _ cs) =>
    match (if gc then get_widgets_to_color_fuel_list fuel cs else some []) with
    | none => none
    | some rest => some ((if mt && mb then [w] else []) ++ rest)
where
  get_widgets_to_color_fuel_list : Nat → List Widget → Option (List Widget)
  | _, [] => some []
  | fuel, c :: cs =>
    match get_widgets_to_color_fuel fuel c,
        get_widgets_to_color_fuel_list fuel cs with
    | some a, some b => some (a ++ b)
    | _, _ => none

/-- Fuel-bounded variant of `_get_terminals`. -/
def get_terminals_fuel : Nat → Widget → Option (List Widget)
  | 0, _ => none
  | fuel + 1, w@(.node _ gc _ _ _ fgc bgc cs) =>
    match (if gc then get_terminals_fuel_list fuel cs else some []) with
    | none => none
    | some rest => some ((if fgc && bgc then [w] else []) ++ rest)
where
  get_terminals_fuel_list : Nat → List Widget → Option (List Widget)
  | _, [] => some []
  | fuel, c :: cs =>
    match get_terminals_fuel fuel c, get_terminals_fuel_list fuel cs with
    | some a, some b => some (a ++ b)
    | _, _ => none

mutual

theorem get_notebooks_fuel_eq : ∀ (fuel : Nat) (w : Widget), depth w ≤ fuel →
    get_notebooks_fuel fuel w = some (get_notebooks w)
  | 0, .node tn gc nb mt mb fgc bgc cs => by
    intro h
    simp [depth] at h
  | fuel + 1, .node tn gc nb mt mb fgc bgc cs => by
    intro h
    have hcs : depth.depth_list cs ≤ fuel := by
      simp only [depth, Nat.add_le_add_iff_right] at h
      exact h
    have hl := get_notebooks_fuel_list_eq fuel cs hcs
    by_cases hgc : gc = true <;>
      simp [get_notebooks_fuel, get_notebooks, hgc, hl]

theorem get_notebooks_fuel_list_eq : ∀ (fuel : Nat) (cs : List Widget),
    depth.depth_list cs ≤ fuel →
      get_notebooks_fuel.get_notebooks_fuel_list fuel cs =
        some (get_notebooks.get_notebooks_list cs)
  | fuel, [] => by
    intro _
    simp [get_notebooks_fuel.get_notebooks_fuel_list,
      get_notebooks.get_notebooks_list]
  | fuel, c :: cs => by
    intro h
    simp only [depth.depth_list, max_le_iff] at h
    have h1 := get_notebooks_fuel_eq fuel c h.1
    have h2 := get_notebooks_fuel_list_eq fuel cs h.2
    simp [get_notebooks_fuel.get_notebooks_fuel_list, h1, h2,
      get_notebooks.get_notebooks_list]

end

mutual

theorem get_widgets_to_color_fuel_eq : ∀ (fuel : Nat) (w : Widget),
    depth w ≤ fuel →
      get_widgets_to_color_fuel fuel w = some (get_widgets_to_color w)
  | 0, .node tn gc nb mt mb fgc bgc cs => by
    intro h
    simp [depth] at h
  | fuel + 1, .node tn gc nb mt mb fgc bgc cs => by
    intro h
    have hcs : depth.depth_list cs ≤ fuel := by
      simp only [depth, Nat.add_le_add_iff_right] at h
      exact h
    have hl := get_widgets_to_color_fuel_list_eq fuel cs hcs
    by_cases hgc : gc = true <;>
      simp [get_widgets_to_color_fuel, get_widgets_to_color, hgc, hl]

theorem get_widgets_to_color_fuel_list_eq : ∀ (fuel : Nat) (cs : List Widget),
    depth.depth_list cs ≤ fuel →
      get_widgets_to_color_fuel.get_widgets_to_color_fuel_list fuel cs =
        some (get_widgets_to_color.get_widgets_to_color_list cs)
  | fuel, [] => by
    intro _
    simp [get_widgets_to_color_fuel.get_widgets_to_color_fuel_list,
      get_widgets_to_color.get_widgets_to_color_list]
  | fuel, c :: cs => by
    intro h
    simp only [depth.depth_list, max_le_iff] at h
    have h1 := get_widgets_to_color_fuel_eq fuel c h.1
    have h2 := get_widgets_to_color_fuel_list_eq fuel cs h.2
    simp [get_widgets_to_color_fuel.get_widgets_to_color_fuel_list, h1, h2,
      get_widgets_to_color.get_widgets_to_color_list]

end

mutual

theorem get_terminals_fuel_eq : ∀ (fuel : Nat) (w : Widget),
    depth w ≤ fuel →
      get_terminals_fuel fuel w = some (get_terminals w)
  | 0, .node tn gc nb mt mb fgc bgc cs => by
    intro h
    simp [depth] at h
  | fuel + 1, .node tn gc nb mt mb fgc bgc cs => by
    intro h
    have hcs : depth.depth_list cs ≤ fuel := by
      simp only [depth, Nat.add_le_add_iff_right] at h
      exact h
    have hl := get_terminals_fuel_list_eq fuel cs hcs
    by_cases hgc : gc = true <;>
      simp [get_terminals_fuel, get_terminals, hgc, hl]

theorem get_terminals_fuel_list_eq : ∀ (fuel : Nat) (cs : List Widget),
    depth.depth_list cs ≤ fuel →
      get_terminals_fuel.get_terminals_fuel_list fuel cs =
        some (get_terminals.get_terminals_list cs)
  | fuel, [] => by
    intro _
    simp [get_terminals_fuel.get_terminals_fuel_list,
      get_terminals.get_terminals_list]
  | fuel, c :: cs => by
    intro h
    simp only [depth.depth_list, max_le_iff] at h
    have h1 := get_terminals_fuel_eq fuel c h.1
    have h2 := get_terminals_fuel_list_eq fuel cs h.2
    simp [get_terminals_fuel.get_terminals_fuel_list, h1, h2,
      get_terminals.get_terminals_list]

end

/-- Python `x or default` on an optional string (`None` and `''` are
falsy). -/
def pyOrStr (x : Option String) (d : String) : String :=
  match x with
  | none => d
  | some s => if s = "" then d else s

/-- The GConf client as the plugin reads it: `get_bool` (false when the
key is unset) and `get_string` (`None` when the key is unset). -/
structure GConfClient where
  bools : String → Bool
  strings : String → Option String

/-- A `gtksourceview2.Style`, restricted to the four properties the
plugin reads. -/
structure Style where
  foreground_set : Bool
  foreground : Option String
  background_set : Bool
  background : Option String

/-- A `gtksourceview2.StyleScheme`, restricted to `get_style('text')`. -/
structure StyleScheme where
  text_style : Option Style

/-- The read-only surroundings of one `update_pane_colors` run: the GConf
client, the style-scheme manager's `get_scheme`, each widget's GTK style
(`get_style().text[gtk.STATE_NORMAL]` / `.base[gtk.STATE_NORMAL]`), and
the terminal text attributes delivered by `terminal.get_text` (`none`
when the attribute list or the first character's attributes are falsy,
otherwise the `'fore'`/`'back'` pair). -/
structure Env where
  gconf : GConfClient
  schemes : String → Option StyleScheme
  style_text : Widget → Color
  style_base : Widget → Color
  term_attr_colors : Widget → Option (Color × Color)

/-- The mutable state the plugin acts on: per-widget
`modify_text`/`modify_base` modifications, per-terminal foreground,
background and font, and the plugin's `terminal_colors` /
`terminal_font` dictionaries of recorded originals. -/
structure World where
  text_mod : Widget → Option Color
  base_mod : Widget → Option Color
  term_fg : Widget → Color
  term_bg : Widget → Color
  term_font : Widget → Option String
  terminal_colors : Widget → Option (Option Color × Option Color)
  terminal_font : Widget → Option (Option String)

/-- `ColorPanesWindowHelper._get_style_colors` (trunk, lines 461–474). -/
def get_style_colors (style : Style) : Option Color × Option Color :=
  let text_color : Option Color :=
    if style.foreground_set then
      match style.foreground with
      | some desc => if desc = "" then none else some desc
      | none => none
    else none
  let base_color : Option Color :=
    if style.background_set then
      match style.background with
      | some desc => if desc = "" then none else some desc
      | none => none
    else none
  (text_color, base_color)

/-- `ColorPanesWindowHelper._get_gedit_scheme_colors` (trunk, lines
424–451): the foreground/background of the `'text'` style of the color
scheme named by GConf (defaulting to `'classic'`); `None`/`None` when the
scheme or its `'text'` style is missing.  (The `else` branch of the
source only logs.) -/
def get_gedit_scheme_colors (env : Env) : Option Color × Option Color :=
  let scheme_name :=
    pyOrStr (env.gconf.strings "/apps/gedit-2/preferences/editor/colors/scheme")
      "classic"
  match env.schemes scheme_name with
  | some style_scheme =>
    match style_scheme.text_style with
    | some style => get_style_colors style
    | none => (none, none)
  | none => (none, none)

/-- `ColorPanesWindowHelper._get_gedit_font` (trunk, lines 476–489). -/
def get_gedit_font (c : GConfClient) : Option String :=
  if c.bools "/apps/gedit-2/preferences/editor/font/use_default_font" then
    c.strings "/desktop/gnome/interface/monospace_font_name"
  else
    c.strings "/apps/gedit-2/preferences/editor/font/editor_font"

/-- `ColorPanesWindowHelper._get_term_colors_from_term` (trunk, lines
504–516). -/
def get_term_colors_from_term (env : Env) (terminal : Widget) :
    Option Color × Option Color :=
  match env.term_attr_colors terminal with
  | none => (none, none)
  | some (f, b) => (some f, some b)

/-- `ColorPanesWindowHelper._get_term_colors_from_gconf` (trunk, lines
518–531): the Gnome Terminal `'Default'` profile colors (the profile read
from GConf is overwritten by the hard-coded `'Default'`). -/
def get_term_colors_from_gconf (env : Env) : Option Color × Option Color :=
  (env.gconf.strings "/apps/gnome-terminal/profiles/Default/foreground_color",
   env.gconf.strings "/apps/gnome-terminal/profiles/Default/background_color")

/-- The pair recorded by `ColorPanesWindowHelper._store_terminal_colors`
(trunk, lines 493–502): the colors read from the terminal text, replaced
by the GConf profile colors when either is missing or the two coincide. -/
def store_terminal_colors_val (env : Env) (terminal : Widget) :
    Option Color × Option Color :=
  match get_term_colors_from_term env terminal with
  | (some f, some b) =>
    if f = b then get_term_colors_from_gconf env else (some f, some b)
  | _ => get_term_colors_from_gconf env

/-- One iteration of the `for widget in widgets_to_color` loop of
`update_pane_colors` (trunk, lines 271–274). -/
def color_widget (tc bc : Option Color) (s : World) (w : Widget) : World :=
  { s with text_mod := Function.update s.text_mod w tc,
           base_mod := Function.update s.base_mod w bc }

/-- One iteration of the `for terminal in terminals` loop of
`update_pane_colors` (trunk, lines 275–297): record the original colors
and font on first sight, then recolor with the scheme colors (falling
back to the terminal's style colors) and apply the Gedit editor font. -/
def color_terminal (env : Env) (tc bc : Option Color) (s : World)
    (terminal : Widget) : World :=
  let s1 :=
    if TERMINAL_MATCH_COLORS then
      let s' :=
        if (s.terminal_colors terminal).isNone then
          let stored := some (store_terminal_colors_val env terminal)
          { s with terminal_colors := Function.update s.terminal_colors terminal stored }
        else s
      let fg := tc.getD (env.style_text terminal)
      let bg := bc.getD (env.style_base terminal)
      { s' with term_fg := Function.update s'.term_fg terminal fg,
                term_bg := Function.update s'.term_bg terminal bg }
    else s
  if TERMINAL_MATCH_FONT then
    let s2 :=
      if (s1.terminal_font terminal).isNone then
        let stored := some (s1.term_font terminal)
        { s1 with terminal_font := Function.update s1.terminal_font terminal stored }
      else s1
    { s2 with term_font := Function.update s2.term_font terminal (get_gedit_font env.gconf) }
  else s1

/-- The widgets collected from the pane notebooks by `update_pane_colors`
(trunk, lines 263–266, the `|=` union of per-notebook searches). -/
def widgets_of (notebooks : List Widget) : List Widget :=
  notebooks.foldl (fun acc nb => acc ++ get_widgets_to_color nb) []

/-- The terminals collected from the pane notebooks by
`update_pane_colors` (trunk, lines 264–267). -/
def terminals_of (notebooks : List Widget) : List Widget :=
  notebooks.foldl (fun acc nb => acc ++ get_terminals nb) []

/-- `ColorPanesWindowHelper.update_pane_colors` (trunk, lines 260–297). -/
def update_pane_colors (env : Env) (notebooks : List Widget) (s : World) :
    World :=
  let widgets_to_color := widgets_of notebooks
  let terminals := terminals_of notebooks
  let p := get_gedit_scheme_colors env
  let s1 := widgets_to_color.foldl (color_widget p.1 p.2) s
  terminals.foldl (color_terminal env p.1 p.2) s1

/-- One iteration of the widget-restoring loop of `_restore_pane_colors`
(trunk, lines 309–311): reset the modifications with `None`. -/
def restore_widget (s : World) (w : Widget) : World :=
  { s with text_mod := Function.update s.text_mod w none,
           base_mod := Function.update s.base_mod w none }

/-- One iteration of the terminal-restoring loop of
`_restore_pane_colors` (trunk, lines 312–330): put back the recorded
original colors and font when they were recorded (and truthy). -/
def restore_terminal (s : World) (terminal : Widget) : World :=
  let s1 :=
    if TERMINAL_MATCH_COLORS then
      match s.terminal_colors terminal with
      | some (fo, bo) =>
        let sa :=
          match fo with
          | some f => { s with term_fg := Function.update s.term_fg terminal f }
          | none => s
        match bo with
        | some b => { sa with term_bg := Function.update sa.term_bg terminal b }
        | none => sa
      | none => s
    else s
  if TERMINAL_MATCH_FONT then
    match s1.terminal_font terminal with
    | some (some fs) =>
      if fs = "" then s1
      else { s1 with term_font := Function.update s1.term_font terminal (some fs) }
    | _ => s1
  else s1

/-- `ColorPanesWindowHelper._restore_pane_colors` (trunk, lines
299–331). -/
def restore_pane_colors (notebooks : List Widget) (s : World) : World :=
  let widgets_to_color := widgets_of notebooks
  let terminals := terminals_of notebooks
  let s1 := widgets_to_color.foldl restore_widget s
  terminals.foldl restore_terminal s1

theorem color_widget_fields (tc bc : Option Color) (s : World) (w : Widget) :
    (color_widget tc bc s w).text_mod = Function.update s.text_mod w tc ∧
    (color_widget tc bc s w).base_mod = Function.update s.base_mod w bc ∧
    (color_widget tc bc s w).term_fg = s.term_fg ∧
    (color_widget tc bc s w).term_bg = s.term_bg ∧
    (color_widget tc bc s w).term_font = s.term_font ∧
    (color_widget tc bc s w).terminal_colors = s.terminal_colors ∧
    (color_widget tc bc s w).terminal_font = s.terminal_font := by
  simp [color_widget]

theorem color_terminal_same (env : Env) (tc bc : Option Color) (s : World)
    (t : Widget) :
    (color_terminal env tc bc s t).term_fg t = tc.getD (env.style_text t) ∧
    (color_terminal env tc bc s t).term_bg t = bc.getD (env.style_base t) ∧
    (color_terminal env tc bc s t).term_font t = get_gedit_font env.gconf ∧
    (color_terminal env tc bc s t).terminal_colors t =
      some ((s.terminal_colors t).getD (store_terminal_colors_val env t)) ∧
    (color_terminal env tc bc s t).terminal_font t =
      some ((s.terminal_font t).getD (s.term_font t)) := by
  cases hc : s.terminal_colors t <;> cases hf : s.terminal_font t <;>
    simp [color_terminal, TERMINAL_MATCH_COLORS, TERMINAL_MATCH_FONT, hc, hf,
      Function.update_same, Function.update_apply]

theorem color_terminal_other (env : Env) (tc bc : Option Color) (s : World)
    (t x : Widget) (hx : x ≠ t) :
    (color_terminal env tc bc s t).term_fg x = s.term_fg x ∧
    (color_terminal env tc bc s t).term_bg x = s.term_bg x ∧
    (color_terminal env tc bc s t).term_font x = s.term_font x ∧
    (color_terminal env tc bc s t).terminal_colors x = s.terminal_colors x ∧
    (color_terminal env tc bc s t).terminal_font x = s.terminal_font x := by
  cases hc : s.terminal_colors t <;> cases hf : s.terminal_font t <;>
    simp [color_terminal, TERMINAL_MATCH_COLORS, TERMINAL_MATCH_FONT, hc, hf,
      Function.update_apply, hx]

theorem color_terminal_mods (env : Env) (tc bc : Option Color) (s : World)
    (t : Widget) :
    (color_terminal env tc bc s t).text_mod = s.text_mod ∧
    (color_terminal env tc bc s t).base_mod = s.base_mod := by
  cases hc : s.terminal_colors t <;> cases hf : s.terminal_font t <;>
    simp [color_terminal, TERMINAL_MATCH_COLORS, TERMINAL_MATCH_FONT, hc, hf]

theorem wfold_text_mod (tc bc : Option Color) (l : List Widget) :
    ∀ (s : World) (x : Widget),
      (l.foldl (color_widget tc bc) s).text_mod x =
        if x ∈ l then tc else s.text_mod x := by
  induction l with
  | nil => simp
  | cons a rest ih =>
    intro s x
    simp only [List.foldl_cons, ih, List.mem_cons, color_widget,
      Function.update_apply]
    by_cases h1 : x = a <;> by_cases h2 : x ∈ rest <;> simp [h1, h2]

theorem wfold_base_mod (tc bc : Option Color) (l : List Widget) :
    ∀ (s : World) (x : Widget),
      (l.foldl (color_widget tc bc) s).base_mod x =
        if x ∈ l then bc else s.base_mod x := by
  induction l with
  | nil => simp
  | cons a rest ih =>
    intro s x
    simp only [List.foldl_cons, ih, List.mem_cons, color_widget,
      Function.update_apply]
    by_cases h1 : x = a <;> by_cases h2 : x ∈ rest <;> simp [h1, h2]

theorem wfold_frame (tc bc : Option Color) (l : List Widget) :
    ∀ (s : World),
      (l.foldl (color_widget tc bc) s).term_fg = s.term_fg ∧
      (l.foldl (color_widget tc bc) s).term_bg = s.term_bg ∧
      (l.foldl (color_widget tc bc) s).term_font = s.term_font ∧
      (l.foldl (color_widget tc bc) s).terminal_colors = s.terminal_colors ∧
      (l.foldl (color_widget tc bc) s).terminal_font = s.terminal_font := by
  induction l with
  | nil => simp
  | cons a rest ih =>
    intro s
    simp [List.foldl_cons, ih, color_widget]

theorem tfold_term_fg (env : Env) (tc bc : Option Color) (l : List Widget) :
    ∀ (s : World) (t : Widget),
      (l.foldl (color_terminal env tc bc) s).term_fg t =
        if t ∈ l then tc.getD (env.style_text t) else s.term_fg t := by
  induction l with
  | nil => simp
  | cons a rest ih =>
    intro s t
    simp only [List.foldl_cons, ih, List.mem_cons]
    by_cases h1 : t = a
    · subst h1
      have hsame := (color_terminal_same env tc bc s t).1
      by_cases h2 : t ∈ rest <;> simp [h2, hsame]
    · have hoth := (color_terminal_other env tc bc s a t h1).1
      by_cases h2 : t ∈ rest <;> simp [h1, h2, hoth]

theorem tfold_term_bg (env : Env) (tc bc : Option Color) (l : List Widget) :
    ∀ (s : World) (t : Widget),
      (l.foldl (color_terminal env tc bc) s).term_bg t =
        if t ∈ l then bc.getD (env.style_base t) else s.term_bg t := by
  induction l with
  | nil => simp
  | cons a rest ih =>
    intro s t
    simp only [List.foldl_cons, ih, List.mem_cons]
    by_cases h1 : t = a
    · subst h1
      have hsame := (color_terminal_same env tc bc s t).2.1
      by_cases h2 : t ∈ rest <;> simp [h2, hsame]
    · have hoth := (color_terminal_other env tc bc s a t h1).2.1
      by_cases h2 : t ∈ rest <;> simp [h1, h2, hoth]

theorem tfold_term_font (env : Env) (tc bc : Option Color) (l : List Widget) :
    ∀ (s : World) (t : Widget),
      (l.foldl (color_terminal env tc bc) s).term_font t =
        if t ∈ l then get_gedit_font env.gconf else s.term_font t := by
  induction l with
  | nil => simp
  | cons a rest ih =>
    intro s t
    simp only [List.foldl_cons, ih, List.mem_cons]
    by_cases h1 : t = a
    · subst h1
      have hsame := (color_terminal_same env tc bc s t).2.2.1
      by_cases h2 : t ∈ rest <;> simp [h2, hsame]
    · have hoth := (color_terminal_other env tc bc s a t h1).2.2.1
      by_cases h2 : t ∈ rest <;> simp [h1, h2, hoth]

theorem tfold_terminal_colors (env : Env) (tc bc : Option Color)
    (l : List Widget) :
    ∀ (s : World) (t : Widget),
      (l.foldl (color_terminal env tc bc) s).terminal_colors t =
        if t ∈ l then
          some ((s.terminal_colors t).getD (store_terminal_colors_val env t))
        else s.terminal_colors t := by
  induction l with
  | nil => simp
  | cons a rest ih =>
    intro s t
    simp only [List.foldl_cons, ih, List.mem_cons]
    by_cases h1 : t = a
    · subst h1
      have hsame := (color_terminal_same env tc bc s t).2.2.2.1
      by_cases h2 : t ∈ rest <;> simp [h2, hsame]
    · have hoth := (color_terminal_other env tc bc s a t h1).2.2.2.1
      by_cases h2 : t ∈ rest <;> simp [h1, h2, hoth]

theorem tfold_terminal_font (env : Env) (tc bc : Option Color)
    (l : List Widget) :
    ∀ (s : World) (t : Widget),
      (l.foldl (color_terminal env tc bc) s).terminal_font t =
        if t ∈ l then some ((s.terminal_font t).getD (s.term_font t))
        else s.terminal_font t := by
  induction l with
  | nil => simp
  | cons a rest ih =>
    intro s t
    simp only [List.foldl_cons, ih, List.mem_cons]
    by_cases h1 : t = a
    · subst h1
      have hsame := (color_terminal_same env tc bc s t).2.2.2.2
      by_cases h2 : t ∈ rest <;> simp [h2, hsame]
    · have hoth := (color_terminal_other env tc bc s a t h1).2.2.2.2
      have hoth2 := (color_terminal_other env tc bc s a t h1).2.2.1
      by_cases h2 : t ∈ rest <;> simp [h1, h2, hoth, hoth2]

theorem tfold_mods (env : Env) (tc bc : Option Color) (l : List Widget) :
    ∀ (s : World),
      (l.foldl (color_terminal env tc bc) s).text_mod = s.text_mod ∧
      (l.foldl (color_terminal env tc bc) s).base_mod = s.base_mod := by
  induction l with
  | nil => simp
  | cons a rest ih =>
    intro s
    have h := color_terminal_mods env tc bc s a
    simp [List.foldl_cons, (ih _).1, (ih _).2, h.1, h.2]

theorem update_pane_colors_text_mod (env : Env) (nbs : List Widget)
    (s : World) (x : Widget) :
    (update_pane_colors env nbs s).text_mod x =
      if x ∈ widgets_of nbs then (get_gedit_scheme_colors env).1
      else s.text_mod x := by
  have hm := (tfold_mods env (get_gedit_scheme_colors env).1
    (get_gedit_scheme_colors env).2 (terminals_of nbs)
    ((widgets_of nbs).foldl
      (color_widget (get_gedit_scheme_colors env).1
        (get_gedit_scheme_colors env).2) s)).1
  have hw := wfold_text_mod (get_gedit_scheme_colors env).1
    (get_gedit_scheme_colors env).2 (widgets_of nbs) s x
  simp only [update_pane_colors]
  rw [hm]
  exact hw

theorem update_pane_colors_base_mod (env : Env) (nbs : List Widget)
    (s : World) (x : Widget) :
    (update_pane_colors env nbs s).base_mod x =
      if x ∈ widgets_of nbs then (get_gedit_scheme_colors env).2
      else s.base_mod x := by
  have hm := (tfold_mods env (get_gedit_scheme_colors env).1
    (get_gedit_scheme_colors env).2 (terminals_of nbs)
    ((widgets_of nbs).foldl
      (color_widget (get_gedit_scheme_colors env).1
        (get_gedit_scheme_colors env).2) s)).2
  have hw := wfold_base_mod (get_gedit_scheme_colors env).1
    (get_gedit_scheme_colors env).2 (widgets_of nbs) s x
  simp only [update_pane_colors]
  rw [hm]
  exact hw

theorem update_pane_colors_term_fg (env : Env) (nbs : List Widget)
    (s : World) (t : Widget) :
    (update_pane_colors env nbs s).term_fg t =
      if t ∈ terminals_of nbs then
        (get_gedit_scheme_colors env).1.getD (env.style_text t)
      else s.term_fg t := by
  have hfr := wfold_frame (get_gedit_scheme_colors env).1
    (get_gedit_scheme_colors env).2 (widgets_of nbs) s
  have ht := tfold_term_fg env (get_gedit_scheme_colors env).1
    (get_gedit_scheme_colors env).2 (terminals_of nbs)
    ((widgets_of nbs).foldl
      (color_widget (get_gedit_scheme_colors env).1
        (get_gedit_scheme_colors env).2) s) t
  simp only [update_pane_colors]
  rw [ht, hfr.1]

theorem update_pane_colors_term_bg (env : Env) (nbs : List Widget)
    (s : World) (t : Widget) :
    (update_pane_colors env nbs s).term_bg t =
      if t ∈ terminals_of nbs then
        (get_gedit_scheme_colors env).2.getD (env.style_base t)
      else s.term_bg t := by
  have hfr := wfold_frame (get_gedit_scheme_colors env).1
    (get_gedit_scheme_colors env).2 (widgets_of nbs) s
  have ht := tfold_term_bg env (get_gedit_scheme_colors env).1
    (get_gedit_scheme_colors env).2 (terminals_of nbs)
    ((widgets_of nbs).foldl
      (color_widget (get_gedit_scheme_colors env).1
        (get_gedit_scheme_colors env).2) s) t
  simp only [update_pane_colors]
  rw [ht, hfr.2.1]

theorem update_pane_colors_term_font (env : Env) (nbs : List Widget)
    (s : World) (t : Widget) :
    (update_pane_colors env nbs s).term_font t =
      if t ∈ terminals_of nbs then get_gedit_font env.gconf
      else s.term_font t := by
  have hfr := wfold_frame (get_gedit_scheme_colors env).1
    (get_gedit_scheme_colors env).2 (widgets_of nbs) s
  have ht := tfold_term_font env (get_gedit_scheme_colors env).1
    (get_gedit_scheme_colors env).2 (terminals_of nbs)
    ((widgets_of nbs).foldl
      (color_widget (get_gedit_scheme_colors env).1
        (get_gedit_scheme_colors env).2) s) t
  simp only [update_pane_colors]
  rw [ht, hfr.2.2.1]

theorem update_pane_colors_terminal_colors (env : Env) (nbs : List Widget)
    (s : World) (t : Widget) :
    (update_pane_colors env nbs s).terminal_colors t =
      if t ∈ terminals_of nbs then
        some ((s.terminal_colors t).getD (store_terminal_colors_val env t))
      else s.terminal_colors t := by
  have hfr := wfold_frame (get_gedit_scheme_colors env).1
    (get_gedit_scheme_colors env).2 (widgets_of nbs) s
  have ht := tfold_terminal_colors env (get_gedit_scheme_colors env).1
    (get_gedit_scheme_colors env).2 (terminals_of nbs)
    ((widgets_of nbs).foldl
      (color_widget (get_gedit_scheme_colors env).1
        (get_gedit_scheme_colors env).2) s) t
  simp only [update_pane_colors]
  rw [ht, hfr.2.2.2.1]

theorem update_pane_colors_terminal_font (env : Env) (nbs : List Widget)
    (s : World) (t : Widget) :
    (update_pane_colors env nbs s).terminal_font t =
      if t ∈ terminals_of nbs then
        some ((s.terminal_font t).getD (s.term_font t))
      else s.terminal_font t := by
  have hfr := wfold_frame (get_gedit_scheme_colors env).1
    (get_gedit_scheme_colors env).2 (widgets_of nbs) s
  have ht := tfold_terminal_font env (get_gedit_scheme_colors env).1
    (get_gedit_scheme_colors env).2 (terminals_of nbs)
    ((widgets_of nbs).foldl
      (color_widget (get_gedit_scheme_colors env).1
        (get_gedit_scheme_colors env).2) s) t
  simp only [update_pane_colors]
  rw [ht, hfr.2.2.2.2, hfr.2.2.1]

/-- The foreground a terminal ends up with after its restoring loop
iteration: the recorded original when one was recorded (and truthy),
otherwise whatever it had. -/
def restored_fg (s : World) (t : Widget) : Color :=
  match s.terminal_colors t with
  | some (some f, _) => f
  | _ => s.term_fg t

/-- Background analogue of `restored_fg`. -/
def restored_bg (s : World) (t : Widget) : Color :=
  match s.terminal_colors t with
  | some (_, some b) => b
  | _ => s.term_bg t

/-- The font a terminal ends up with after its restoring loop iteration. -/
def restored_font (s : World) (t : Widget) : Option String :=
  match s.terminal_font t with
  | some (some fs) => if fs = "" then s.term_font t else some fs
  | _ => s.term_font t

theorem restore_widget_fields (s : World) (w : Widget) :
    (restore_widget s w).text_mod = Function.update s.text_mod w none ∧
    (restore_widget s w).base_mod = Function.update s.base_mod w none ∧
    (restore_widget s w).term_fg = s.term_fg ∧
    (restore_widget s w).term_bg = s.term_bg ∧
    (restore_widget s w).term_font = s.term_font ∧
    (restore_widget s w).terminal_colors = s.terminal_colors ∧
    (restore_widget s w).terminal_font = s.terminal_font := by
  simp [restore_widget]

theorem restore_terminal_dicts (s : World) (t : Widget) :
    (restore_terminal s t).terminal_colors = s.terminal_colors ∧
    (restore_terminal s t).terminal_font = s.terminal_font ∧
    (restore_terminal s t).text_mod = s.text_mod ∧
    (restore_terminal s t).base_mod = s.base_mod := by
  unfold restore_terminal
  rcases hc : s.terminal_colors t with _ | ⟨fo, bo⟩ <;>
    [skip; (rcases fo with _ | f <;> rcases bo with _ | b)] <;>
    rcases hf : s.terminal_font t with _ | ⟨_ | fs⟩ <;>
    simp_all [TERMINAL_MATCH_COLORS, TERMINAL_MATCH_FONT] <;>
    split_ifs <;> simp_all

theorem restore_terminal_same (s : World) (t : Widget) :
    (restore_terminal s t).term_fg t = restored_fg s t ∧
    (restore_terminal s t).term_bg t = restored_bg s t ∧
    (restore_terminal s t).term_font t = restored_font s t := by
  unfold restore_terminal restored_fg restored_bg restored_font
  rcases hc : s.terminal_colors t with _ | ⟨fo, bo⟩ <;>
    [skip; (rcases fo with _ | f <;> rcases bo with _ | b)] <;>
    rcases hf : s.terminal_font t with _ | ⟨_ | fs⟩ <;>
    simp_all [TERMINAL_MATCH_COLORS, TERMINAL_MATCH_FONT,
      Function.update_same, Function.update_apply] <;>
    split_ifs <;> simp_all [Function.update_apply]

theorem restore_terminal_other (s : World) (t x : Widget) (hx : x ≠ t) :
    (restore_terminal s t).term_fg x = s.term_fg x ∧
    (restore_terminal s t).term_bg x = s.term_bg x ∧
    (restore_terminal s t).term_font x = s.term_font x := by
  unfold restore_terminal
  rcases hc : s.terminal_colors t with _ | ⟨fo, bo⟩ <;>
    [skip; (rcases fo with _ | f <;> rcases bo with _ | b)] <;>
    rcases hf : s.terminal_font t with _ | ⟨_ | fs⟩ <;>
    simp_all [TERMINAL_MATCH_COLORS, TERMINAL_MATCH_FONT,
      Function.update_apply, hx] <;>
    split_ifs <;> simp_all [Function.update_apply, hx]

theorem restored_fg_stable (s : World) (a t : Widget) :
    restored_fg (restore_terminal s a) t = restored_fg s t := by
  have hd := restore_terminal_dicts s a
  by_cases hx : t = a
  · subst hx
    have hs := (restore_terminal_same s t).1
    unfold restored_fg at hs ⊢
    rw [hd.1]
    rcases hc : s.terminal_colors t with _ | ⟨fo, bo⟩ <;>
      [skip; rcases fo with _ | f] <;> simp_all
  · have ho := (restore_terminal_other s a t hx).1
    unfold restored_fg
    rw [hd.1, ho]

theorem restored_bg_stable (s : World) (a t : Widget) :
    restored_bg (restore_terminal s a) t = restored_bg s t := by
  have hd := restore_terminal_dicts s a
  by_cases hx : t = a
  · subst hx
    have hs := (restore_terminal_same s t).2.1
    unfold restored_bg at hs ⊢
    rw [hd.1]
    rcases hc : s.terminal_colors t with _ | ⟨fo, bo⟩ <;>
      [skip; rcases bo with _ | b] <;> simp_all
  · have ho := (restore_terminal_other s a t hx).2.1
    unfold restored_bg
    rw [hd.1, ho]

theorem restored_font_stable (s : World) (a t : Widget) :
    restored_font (restore_terminal s a) t = restored_font s t := by
  have hd := restore_terminal_dicts s a
  by_cases hx : t = a
  · subst hx
    have hs := (restore_terminal_same s t).2.2
    unfold restored_font at hs ⊢
    rw [hd.2.1]
    rcases hf : s.terminal_font t with _ | ⟨_ | fs⟩ <;> simp_all
  · have ho := (restore_terminal_other s a t hx).2.2
    unfold restored_font
    rw [hd.2.1, ho]

theorem rwfold_text_mod (l : List Widget) :
    ∀ (s : World) (x : Widget),
      (l.foldl restore_widget s).text_mod x =
        if x ∈ l then none else s.text_mod x := by
  induction l with
  | nil => simp
  | cons a rest ih =>
    intro s x
    simp only [List.foldl_cons, ih, List.mem_cons, restore_widget,
      Function.update_apply]
    by_cases h1 : x = a <;> by_cases h2 : x ∈ rest <;> simp [h1, h2]

theorem rwfold_base_mod (l : List Widget) :
    ∀ (s : World) (x : Widget),
      (l.foldl restore_widget s).base_mod x =
        if x ∈ l then none else s.base_mod x := by
  induction l with
  | nil => simp
  | cons a rest ih =>
    intro s x
    simp only [List.foldl_cons, ih, List.mem_cons, restore_widget,
      Function.update_apply]
    by_cases h1 : x = a <;> by_cases h2 : x ∈ rest <;> simp [h1, h2]

theorem rwfold_frame (l : List Widget) :
    ∀ (s : World),
      (l.foldl restore_widget s).term_fg = s.term_fg ∧
      (l.foldl restore_widget s).term_bg = s.term_bg ∧
      (l.foldl restore_widget s).term_font = s.term_font ∧
      (l.foldl restore_widget s).terminal_colors = s.terminal_colors ∧
      (l.foldl restore_widget s).terminal_font = s.terminal_font := by
  induction l with
  | nil => simp
  | cons a rest ih =>
    intro s
    simp [List.foldl_cons, ih, restore_widget]

theorem rtfold_term_fg (l : List Widget) :
    ∀ (s : World) (t : Widget),
      (l.foldl restore_terminal s).term_fg t =
        if t ∈ l then restored_fg s t else s.term_fg t := by
  induction l with
  | nil => simp
  | cons a rest ih =>
    intro s t
    simp only [List.foldl_cons, ih, List.mem_cons, restored_fg_stable]
    by_cases h1 : t = a
    · subst h1
      have hs := (restore_terminal_same s t).1
      by_cases h2 : t ∈ rest <;> simp [h2, hs]
    · have ho := (restore_terminal_other s a t h1).1
      by_cases h2 : t ∈ rest <;> simp [h1, h2, ho]

theorem rtfold_term_bg (l : List Widget) :
    ∀ (s : World) (t : Widget),
      (l.foldl restore_terminal s).term_bg t =
        if t ∈ l then restored_bg s t else s.term_bg t := by
  induction l with
  | nil => simp
  | cons a rest ih =>
    intro s t
    simp only [List.foldl_cons, ih, List.mem_cons, restored_bg_stable]
    by_cases h1 : t = a
    · subst h1
      have hs := (restore_terminal_same s t).2.1
      by_cases h2 : t ∈ rest <;> simp [h2, hs]
    · have ho := (restore_terminal_other s a t h1).2.1
      by_cases h2 : t ∈ rest <;> simp [h1, h2, ho]

theorem rtfold_term_font (l : List Widget) :
    ∀ (s : World) (t : Widget),
      (l.foldl restore_terminal s).term_font t =
        if t ∈ l then restored_font s t else s.term_font t := by
  induction l with
  | nil => simp
  | cons a rest ih =>
    intro s t
    simp only [List.foldl_cons, ih, List.mem_cons, restored_font_stable]
    by_cases h1 : t = a
    · subst h1
      have hs := (restore_terminal_same s t).2.2
      by_cases h2 : t ∈ rest <;> simp [h2, hs]
    · have ho := (restore_terminal_other s a t h1).2.2
      by_cases h2 : t ∈ rest <;> simp [h1, h2, ho]

theorem rtfold_frame (l : List Widget) :
    ∀ (s : World),
      (l.foldl restore_terminal s).terminal_colors = s.terminal_colors ∧
      (l.foldl restore_terminal s).terminal_font = s.terminal_font ∧
      (l.foldl restore_terminal s).text_mod = s.text_mod ∧
      (l.foldl restore_terminal s).base_mod = s.base_mod := by
  induction l with
  | nil => simp
  | cons a rest ih =>
    intro s
    have hd := restore_terminal_dicts s a
    simp [List.foldl_cons, ih, hd.1, hd.2.1, hd.2.2.1, hd.2.2.2]

theorem restored_fg_congr (s' s : World) (t : Widget)
    (h1 : s'.terminal_colors = s.terminal_colors)
    (h2 : s'.term_fg = s.term_fg) : restored_fg s' t = restored_fg s t := by
  unfold restored_fg
  rw [h1, h2]

theorem restored_bg_congr (s' s : World) (t : Widget)
    (h1 : s'.terminal_colors = s.terminal_colors)
    (h2 : s'.term_bg = s.term_bg) : restored_bg s' t = restored_bg s t := by
  unfold restored_bg
  rw [h1, h2]

theorem restored_font_congr (s' s : World) (t : Widget)
    (h1 : s'.terminal_font = s.terminal_font)
    (h2 : s'.term_font = s.term_font) :
    restored_font s' t = restored_font s t := by
  unfold restored_font
  rw [h1, h2]

theorem restore_pane_colors_text_mod (nbs : List Widget) (s : World)
    (x : Widget) :
    (restore_pane_colors nbs s).text_mod x =
      if x ∈ widgets_of nbs then none else s.text_mod x := by
  have hfr := rtfold_frame (terminals_of nbs)
    ((widgets_of nbs).foldl restore_widget s)
  have hw := rwfold_text_mod (widgets_of nbs) s x
  simp only [restore_pane_colors]
  rw [hfr.2.2.1]
  exact hw

theorem restore_pane_colors_base_mod (nbs : List Widget) (s : World)
    (x : Widget) :
    (restore_pane_colors nbs s).base_mod x =
      if x ∈ widgets_of nbs then none else s.base_mod x := by
  have hfr := rtfold_frame (terminals_of nbs)
    ((widgets_of nbs).foldl restore_widget s)
  have hw := rwfold_base_mod (widgets_of nbs) s x
  simp only [restore_pane_colors]
  rw [hfr.2.2.2]
  exact hw

theorem restore_pane_colors_term_fg (nbs : List Widget) (s : World)
    (t : Widget) :
    (restore_pane_colors nbs s).term_fg t =
      if t ∈ terminals_of nbs then restored_fg s t else s.term_fg t := by
  have hfr := rwfold_frame (widgets_of nbs) s
  have ht := rtfold_term_fg (terminals_of nbs)
    ((widgets_of nbs).foldl restore_widget s) t
  simp only [restore_pane_colors]
  rw [ht, restored_fg_congr _ s t hfr.2.2.2.1 hfr.1, hfr.1]

theorem restore_pane_colors_term_bg (nbs : List Widget) (s : World)
    (t : Widget) :
    (restore_pane_colors nbs s).term_bg t =
      if t ∈ terminals_of nbs then restored_bg s t else s.term_bg t := by
  have hfr := rwfold_frame (widgets_of nbs) s
  have ht := rtfold_term_bg (terminals_of nbs)
    ((widgets_of nbs).foldl restore_widget s) t
  simp only [restore_pane_colors]
  rw [ht, restored_bg_congr _ s t hfr.2.2.2.1 hfr.2.1, hfr.2.1]

theorem restore_pane_colors_term_font (nbs : List Widget) (s : World)
    (t : Widget) :
    (restore_pane_colors nbs s).term_font t =
      if t ∈ terminals_of nbs then restored_font s t else s.term_font t := by
  have hfr := rwfold_frame (widgets_of nbs) s
  have ht := rtfold_term_font (terminals_of nbs)
    ((widgets_of nbs).foldl restore_widget s) t
  simp only [restore_pane_colors]
  rw [ht, restored_font_congr _ s t hfr.2.2.2.2 hfr.2.2.1, hfr.2.2.1]

theorem restore_pane_colors_dicts (nbs : List Widget) (s : World) :
    (restore_pane_colors nbs s).terminal_colors = s.terminal_colors ∧
    (restore_pane_colors nbs s).terminal_font = s.terminal_font := by
  have hfr := rwfold_frame (widgets_of nbs) s
  have htr := rtfold_frame (terminals_of nbs)
    ((widgets_of nbs).foldl restore_widget s)
  simp only [restore_pane_colors]
  rw [htr.1, htr.2.1, hfr.2.2.2.1, hfr.2.2.2.2]
  exact ⟨rfl, rfl⟩

/-- GObject signal bookkeeping: the set of live handler connections made
by the plugin and the next handler id `connect` hands out (GTK handler
ids are nonzero, so a well-formed state has `1 ≤ next`). -/
structure SigState where
  connected : Finset Nat
  next : Nat

/-- `widget.connect(...)`: returns a fresh handler id and records the
connection. -/
def SigState.connect (σ : SigState) : Nat × SigState :=
  (σ.next, ⟨insert σ.next σ.connected, σ.next + 1⟩)

/-- `widget.disconnect(handler)` / `gconf_client.notify_remove(cnxn)`. -/
def SigState.disconnect (σ : SigState) (h : Nat) : SigState :=
  ⟨σ.connected.erase h, σ.next⟩

/-- Well-formed signal state: ids are nonzero and below the allocation
counter. -/
def SigOk (σ : SigState) : Prop :=
  1 ≤ σ.next ∧ ∀ i ∈ σ.connected, i < σ.next

/-- The per-window state of `ColorPanesWindowHelper` (trunk): the window,
the `'style-set'` handler, the `'page-added'` handler per notebook, and
the notebooks found at activation. -/
structure HelperState where
  window : Widget
  window_style_handler : Option Nat
  handlers_per_notebook : List (Widget × Nat)
  notebooks : List Widget

/-- `ColorPanesWindowHelper._connect_notebooks` (trunk, lines 398–407):
connect the `'page-added'` signal of every notebook. -/
def connect_notebooks : List Widget → SigState → List (Widget × Nat) × SigState
  | [], σ => ([], σ)
  | nb :: rest, σ =>
    let p := σ.connect
    let q := connect_notebooks rest p.2
    ((nb, p.1) :: q.1, q.2)

/-- `ColorPanesWindowHelper._disconnect_notebooks` (trunk, lines
409–415): disconnect every recorded `'page-added'` handler. -/
def disconnect_notebooks (hs : List (Widget × Nat)) (σ : SigState) : SigState :=
  hs.foldl (fun σ p => σ.disconnect p.2) σ

/-- `ColorPanesWindowHelper.activate` (trunk, lines 240–247): connect the
window's `'style-set'` signal, find the pane notebooks, connect their
`'page-added'` signals, and color the panes. -/
def helper_activate (env : Env) (window : Widget) (σ : SigState) (w : World) :
    HelperState × SigState × World :=
  let p := σ.connect
  let nbs := get_notebooks window
  let q := connect_notebooks nbs p.2
  let w1 := update_pane_colors env nbs w
  ({ window := window, window_style_handler := some p.1,
     handlers_per_notebook := q.1, notebooks := nbs }, q.2, w1)

/-- `ColorPanesWindowHelper.deactivate` (trunk, lines 249–256): restore
the pane colors, disconnect the notebook handlers, then disconnect the
window's `'style-set'` handler (skipped when the stored id is falsy). -/
def helper_deactivate (helper : HelperState) (σ : SigState) (w : World) :
    SigState × World :=
  let w1 := restore_pane_colors helper.notebooks w
  let σ1 := disconnect_notebooks helper.handlers_per_notebook σ
  let σ2 :=
    match helper.window_style_handler with
    | some h => if h = 0 then σ1 else σ1.disconnect h
    | none => σ1
  (σ2, w1)

/-- The state of the `ColorPanesPlugin` singleton (trunk): the window
helpers, and the GConf client/notification bookkeeping. -/
structure PluginState where
  instances : List HelperState
  gconf_client : Bool
  gconf_cnxn : Option Nat

/-- `ColorPanesPlugin._connect_gconf` (trunk, lines 132–145). -/
def connect_gconf (p : PluginState) (σ : SigState) : PluginState × SigState :=
  if p.gconf_client then (p, σ)
  else
    let q := σ.connect
    ({ p with gconf_client := true, gconf_cnxn := some q.1 }, q.2)

/-- `ColorPanesPlugin._disconnect_gconf` (trunk, lines 147–155): remove
the notification if the client and a truthy connection id are present,
then drop both. -/
def disconnect_gconf (p : PluginState) (σ : SigState) : PluginState × SigState :=
  let σ' :=
    if p.gconf_client then
      match p.gconf_cnxn with
      | some h => if h = 0 then σ else σ.disconnect h
      | none => σ
    else σ
  ({ p with gconf_client := false, gconf_cnxn := none }, σ')

/-- `ColorPanesPlugin.activate` (trunk, lines 101–108): connect GConf
when this is the first window, then start a helper for the window. -/
def plugin_activate (env : Env) (p : PluginState) (window : Widget)
    (σ : SigState) (w : World) : PluginState × SigState × World :=
  let pg := if p.instances.isEmpty then connect_gconf p σ else (p, σ)
  let hq := helper_activate env window pg.2 w
  ({ pg.1 with instances := pg.1.instances ++ [hq.1] }, hq.2.1, hq.2.2)

/-- `ColorPanesPlugin.deactivate` (trunk, lines 110–119): deactivate the
window's helper, drop it, and when it was the last one disconnect GConf
and clear the stored terminal colors and fonts.  (A window without a
helper raises `KeyError` in Python; here it is a no-op.) -/
def plugin_deactivate (p : PluginState) (window : Widget) (σ : SigState)
    (w : World) : PluginState × SigState × World :=
  match p.instances.find? (fun h => decide (h.window = window)) with
  | none => (p, σ, w)
  | some helper =>
    let sq := helper_deactivate helper σ w
    let rest := p.instances.eraseP (fun h => decide (h.window = window))
    if rest.isEmpty then
      let pg := disconnect_gconf { p with instances := rest } sq.1
      (pg.1, pg.2,
        { sq.2 with terminal_colors := fun _ => none,
                    terminal_font := fun _ => none })
    else ({ p with instances := rest }, sq.1, sq.2)

/-- `ColorPanesPlugin.on_gedit_prefs_changed` (trunk, lines 157–161):
recolor the panes of every window. -/
def on_gedit_prefs_changed (env : Env) (p : PluginState) (w : World) :
    World :=
  p.instances.foldl
    (fun acc helper => update_pane_colors env helper.notebooks acc) w

/-- `ColorPanesWindowHelper.on_style_set` (trunk, lines 390–394): recolor
the panes and return `False`. -/
def on_style_set (env : Env) (helper : HelperState) (w : World) :
    World × Bool :=
  (update_pane_colors env helper.notebooks w, false)

/-- `ColorPanesWindowHelper.on_page_added` (trunk, lines 417–420). -/
def on_page_added (env : Env) (helper : HelperState) (w : World) : World :=
  update_pane_colors env helper.notebooks w

theorem connect_notebooks_next (nbs : List Widget) : ∀ σ : SigState,
    (connect_notebooks nbs σ).2.next = σ.next + nbs.length := by
  induction nbs with
  | nil => intro σ; simp [connect_notebooks]
  | cons nb rest ih =>
    intro σ
    simp [connect_notebooks, SigState.connect, ih]
    omega

theorem connect_notebooks_connected (nbs : List Widget) :
    ∀ (σ : SigState) (x : Nat),
      x ∈ (connect_notebooks nbs σ).2.connected ↔
        x ∈ σ.connected ∨ (σ.next ≤ x ∧ x < σ.next + nbs.length) := by
  induction nbs with
  | nil => intro σ x; simp [connect_notebooks]
  | cons nb rest ih =>
    intro σ x
    simp only [connect_notebooks, SigState.connect, ih, Finset.mem_insert,
      List.length_cons]
    by_cases hx : x ∈ σ.connected <;> simp [hx] <;> omega

theorem connect_notebooks_ids (nbs : List Widget) :
    ∀ (σ : SigState) (x : Nat),
      x ∈ (connect_notebooks nbs σ).1.map Prod.snd ↔
        σ.next ≤ x ∧ x < σ.next + nbs.length := by
  induction nbs with
  | nil => intro σ x; simp [connect_notebooks]
  | cons nb rest ih =>
    intro σ x
    simp only [connect_notebooks, SigState.connect, List.map_cons,
      List.mem_cons, ih, List.length_cons]
    omega

theorem disconnect_notebooks_next (hs : List (Widget × Nat)) :
    ∀ σ : SigState, (disconnect_notebooks hs σ).next = σ.next := by
  induction hs with
  | nil => intro σ; simp [disconnect_notebooks]
  | cons a rest ih =>
    intro σ
    simp only [disconnect_notebooks, List.foldl_cons] at *
    rw [ih]
    simp [SigState.disconnect]

theorem disconnect_notebooks_mem (hs : List (Widget × Nat)) :
    ∀ (σ : SigState) (x : Nat),
      x ∈ (disconnect_notebooks hs σ).connected ↔
        x ∈ σ.connected ∧ x ∉ hs.map Prod.snd := by
  induction hs with
  | nil => intro σ x; simp [disconnect_notebooks]
  | cons a rest ih =>
    intro σ x
    simp only [disconnect_notebooks, List.foldl_cons] at *
    rw [ih]
    simp only [SigState.disconnect, Finset.mem_erase, List.map_cons,
      List.mem_cons]
    tauto

theorem helper_activate_next (env : Env) (window : Widget) (σ : SigState)
    (w : World) :
    (helper_activate env window σ w).2.1.next =
      σ.next + 1 + (get_notebooks window).length := by
  simp [helper_activate, SigState.connect, connect_notebooks_next]

theorem helper_roundtrip_connected (env : Env) (window : Widget)
    (σ : SigState) (w : World) (hσ : SigOk σ) :
    (helper_deactivate (helper_activate env window σ w).1
        (helper_activate env window σ w).2.1
        (helper_activate env window σ w).2.2).1.connected = σ.connected := by
  have hσn := hσ.1
  have hnz : σ.next ≠ 0 := by omega
  ext x
  simp only [helper_activate, helper_deactivate, SigState.connect, hnz,
    if_false, SigState.disconnect, Finset.mem_erase,
    disconnect_notebooks_mem, connect_notebooks_connected,
    connect_notebooks_ids, Finset.mem_insert]
  by_cases hx : x ∈ σ.connected
  · have := hσ.2 x hx
    simp [hx]
    omega
  · simp [hx]
    omega

theorem plugin_roundtrip (env : Env) (window : Widget) (σ : SigState)
    (w : World) (hσ : SigOk σ)
    (a : PluginState × SigState × World)
    (ha : a = plugin_activate env ⟨[], false, none⟩ window σ w)
    (d : PluginState × SigState × World)
    (hd : d = plugin_deactivate a.1 window a.2.1 a.2.2) :
    d.1.instances = [] ∧ d.1.gconf_client = false ∧
      d.1.gconf_cnxn = none ∧ d.2.1.connected = σ.connected := by
  subst hd
  subst ha
  have hσg : SigOk ⟨insert σ.next σ.connected, σ.next + 1⟩ := by
    refine ⟨by show 1 ≤ σ.next + 1; omega, ?_⟩
    intro i hi
    have hi' : i ∈ insert σ.next σ.connected := hi
    show i < σ.next + 1
    simp only [Finset.mem_insert] at hi'
    rcases hi' with rfl | hi'
    · omega
    · have := hσ.2 i hi'
      omega
  have hrc := helper_roundtrip_connected env window
    ⟨insert σ.next σ.connected, σ.next + 1⟩ w hσg
  have hnz : σ.next ≠ 0 := by
    have := hσ.1
    omega
  have hact : plugin_activate env ⟨[], false, none⟩ window σ w =
      (⟨[(helper_activate env window
            ⟨insert σ.next σ.connected, σ.next + 1⟩ w).1], true, some σ.next⟩,
       (helper_activate env window
          ⟨insert σ.next σ.connected, σ.next + 1⟩ w).2.1,
       (helper_activate env window
          ⟨insert σ.next σ.connected, σ.next + 1⟩ w).2.2) := by
    simp [plugin_activate, connect_gconf, SigState.connect]
  rw [hact]
  have hwin : (helper_activate env window
      ⟨insert σ.next σ.connected, σ.next + 1⟩ w).1.window = window := rfl
  have hfind1 : List.find? (fun h => decide (h.window = window))
      [(helper_activate env window
        ⟨insert σ.next σ.connected, σ.next + 1⟩ w).1] =
      some (helper_activate env window
        ⟨insert σ.next σ.connected, σ.next + 1⟩ w).1 :=
    List.find?_cons_of_pos _ (by simp [hwin])
  have herase : List.eraseP (fun h => decide (h.window = window))
      [(helper_activate env window
        ⟨insert σ.next σ.connected, σ.next + 1⟩ w).1] = [] :=
    List.eraseP_cons_of_pos (by simp [hwin])
  simp only [plugin_deactivate, hfind1, herase, List.isEmpty_nil, if_true,
    disconnect_gconf, hnz, if_false]
  refine ⟨trivial, trivial, trivial, ?_⟩
  simp only [SigState.disconnect]
  rw [hrc]
  exact Finset.erase_insert (fun hmem => by
    have := hσ.2 σ.next hmem
    omega)

theorem plugin_deactivate_dicts (p : PluginState) (window : Widget)
    (σ : SigState) (w : World) (helper : HelperState)
    (hfind : p.instances.find? (fun h => decide (h.window = window)) =
      some helper)
    (d : PluginState × SigState × World)
    (hd : d = plugin_deactivate p window σ w) :
    ((p.instances.eraseP (fun h => decide (h.window = window))).isEmpty =
        true →
      d.1.instances = [] ∧
      d.2.2.terminal_colors = (fun _ => none) ∧
      d.2.2.terminal_font = (fun _ => none)) ∧
    ((p.instances.eraseP (fun h => decide (h.window = window))).isEmpty =
        false →
      d.1.instances =
        p.instances.eraseP (fun h => decide (h.window = window)) ∧
      d.2.2.terminal_colors = w.terminal_colors ∧
      d.2.2.terminal_font = w.terminal_font) := by
  subst hd
  have hdicts := restore_pane_colors_dicts helper.notebooks w
  simp only [plugin_deactivate, hfind]
  cases hrest :
      (p.instances.eraseP (fun h => decide (h.window = window))).isEmpty
  · simp [hrest, helper_deactivate, disconnect_gconf, hdicts.1, hdicts.2]
  · simp [hrest, helper_deactivate, disconnect_gconf, hdicts.1, hdicts.2,
      List.isEmpty_iff.mp hrest]

/-- The widget carries the scheme colors of `env` in its
`modify_text`/`modify_base` modifications. -/
def widget_colored (env : Env) (w : World) (x : Widget) : Prop :=
  w.text_mod x = (get_gedit_scheme_colors env).1 ∧
  w.base_mod x = (get_gedit_scheme_colors env).2

/-- The terminal carries the scheme colors of `env` (with the style
fallback) in its foreground/background. -/
def terminal_colored (env : Env) (w : World) (t : Widget) : Prop :=
  w.term_fg t = (get_gedit_scheme_colors env).1.getD (env.style_text t) ∧
  w.term_bg t = (get_gedit_scheme_colors env).2.getD (env.style_base t)

theorem update_establishes_widget (env : Env) (nbs : List Widget) (s : World)
    (x : Widget) (hx : x ∈ widgets_of nbs) :
    widget_colored env (update_pane_colors env nbs s) x := by
  constructor
  · rw [update_pane_colors_text_mod]
    simp [hx]
  · rw [update_pane_colors_base_mod]
    simp [hx]

theorem update_preserves_widget (env : Env) (nbs : List Widget) (s : World)
    (x : Widget) (h : widget_colored env s x) :
    widget_colored env (update_pane_colors env nbs s) x := by
  constructor
  · rw [update_pane_colors_text_mod]
    split_ifs
    · rfl
    · exact h.1
  · rw [update_pane_colors_base_mod]
    split_ifs
    · rfl
    · exact h.2

theorem update_establishes_terminal (env : Env) (nbs : List Widget)
    (s : World) (t : Widget) (ht : t ∈ terminals_of nbs) :
    terminal_colored env (update_pane_colors env nbs s) t := by
  constructor
  · rw [update_pane_colors_term_fg]
    simp [ht]
  · rw [update_pane_colors_term_bg]
    simp [ht]

theorem update_preserves_terminal (env : Env) (nbs : List Widget) (s : World)
    (t : Widget) (h : terminal_colored env s t) :
    terminal_colored env (update_pane_colors env nbs s) t := by
  constructor
  · rw [update_pane_colors_term_fg]
    split_ifs
    · rfl
    · exact h.1
  · rw [update_pane_colors_term_bg]
    split_ifs
    · rfl
    · exact h.2

theorem fold_preserves_widget (env : Env) (l : List HelperState) :
    ∀ (w : World) (x : Widget), widget_colored env w x →
      widget_colored env
        (l.foldl (fun acc h => update_pane_colors env h.notebooks acc) w) x := by
  induction l with
  | nil => intro w x h; exact h
  | cons a rest ih =>
    intro w x h
    exact ih _ x (update_preserves_widget env a.notebooks w x h)

theorem fold_preserves_terminal (env : Env) (l : List HelperState) :
    ∀ (w : World) (t : Widget), terminal_colored env w t →
      terminal_colored env
        (l.foldl (fun acc h => update_pane_colors env h.notebooks acc) w) t := by
  induction l with
  | nil => intro w t h; exact h
  | cons a rest ih =>
    intro w t h
    exact ih _ t (update_preserves_terminal env a.notebooks w t h)

theorem fold_instances_colored (env : Env) (l : List HelperState) :
    ∀ (w : World) (helper : HelperState), helper ∈ l →
      (∀ x ∈ widgets_of helper.notebooks,
        widget_colored env
          (l.foldl (fun acc h => update_pane_colors env h.notebooks acc) w) x) ∧
      (∀ t ∈ terminals_of helper.notebooks,
        terminal_colored env
          (l.foldl (fun acc h => update_pane_colors env h.notebooks acc) w) t) := by
  induction l with
  | nil => intro w helper hm; exact absurd hm (List.not_mem_nil helper)
  | cons a rest ih =>
    intro w helper hm
    rcases List.mem_cons.mp hm with rfl | hm
    · constructor
      · intro x hx
        exact fold_preserves_widget env rest _ x
          (update_establishes_widget env helper.notebooks w x hx)
      · intro t ht
        exact fold_preserves_terminal env rest _ t
          (update_establishes_terminal env helper.notebooks w t ht)
    · exact ih _ helper hm

namespace V1

/-- The document-signal state of the older `ColorPanesWindowHelper`
(version 1.6.0): the document currently connected (`_signal_doc`,
documents are abstract ids and, being objects, always truthy), the
handler id (`_doc_signal_handler`), the set of live
`'notify::style-scheme'` connections this helper made, the next handler
id GObject would hand out (nonzero), and a count of the
`_update_pane_colors` runs. -/
structure HelperDocState where
  signal_doc : Option Nat
  doc_signal_handler : Option Nat
  connected : Finset Nat
  next : Nat
  recolors : Nat

/-- The state established by `ColorPanesWindowHelper.__init__` before its
final `update_ui` call: no document connected. -/
def init : HelperDocState :=
  { signal_doc := none, doc_signal_handler := none, connected := ∅,
    next := 1, recolors := 0 }

/-- `ColorPanesWindowHelper._disconnect_doc` (v1.6.0, lines 282–288):
disconnect when both `_signal_doc` and `_doc_signal_handler` are truthy,
and clear the handler (but not `_signal_doc`). -/
def disconnect_doc (s : HelperDocState) : HelperDocState :=
  match s.signal_doc, s.doc_signal_handler with
  | some _, some h =>
    if h = 0 then s
    else { s with connected := s.connected.erase h,
                  doc_signal_handler := none }
  | _, _ => s

/-- `ColorPanesWindowHelper._update_doc_handler` (v1.6.0, lines 272–280):
disconnect the old document, then connect the new one when present. -/
def update_doc_handler (doc : Option Nat) (s : HelperDocState) :
    HelperDocState :=
  let s1 := disconnect_doc s
  match doc with
  | some d =>
    { s1 with signal_doc := some d,
              doc_signal_handler := some s1.next,
              connected := insert s1.next s1.connected,
              next := s1.next + 1 }
  | none => s1

/-- `ColorPanesWindowHelper.update_ui` (v1.6.0, lines 201–208): recolor
on the first document seen, and move the handler when the active
document changed. -/
def update_ui (doc : Option Nat) (s : HelperDocState) : HelperDocState :=
  let s1 :=
    if doc.isSome && s.signal_doc.isNone then
      { s with recolors := s.recolors + 1 }
    else s
  if doc ≠ s1.signal_doc then update_doc_handler doc s1 else s1

/-- `ColorPanesWindowHelper.deactivate` (v1.6.0, lines 194–199),
restricted to the document handler (`_disconnect_notebooks` touches only
notebook handlers). -/
def deactivate (s : HelperDocState) : HelperDocState :=
  disconnect_doc s

/-- Invariant of the document-signal state: the allocation counter is
positive, and the live connections are exactly the recorded handler
(none, or one). -/
def Inv (s : HelperDocState) : Prop :=
  1 ≤ s.next ∧
  match s.doc_signal_handler with
  | none => s.connected = ∅
  | some h =>
    1 ≤ h ∧ h < s.next ∧ s.signal_doc.isSome = true ∧ s.connected = {h}

theorem init_inv : Inv init := by
  constructor
  · show (1 : Nat) ≤ 1
    omega
  · show (∅ : Finset Nat) = ∅
    rfl

theorem disconnect_doc_clears (s : HelperDocState) (h : Inv s) :
    (disconnect_doc s).connected = ∅ ∧
    (disconnect_doc s).doc_signal_handler = none ∧
    (disconnect_doc s).next = s.next ∧
    (disconnect_doc s).signal_doc = s.signal_doc := by
  rcases h with ⟨hn, hh⟩
  unfold disconnect_doc
  rcases hd : s.doc_signal_handler with _ | h0 <;> rw [hd] at hh
  · rcases hs : s.signal_doc with _ | d <;> simp_all
  · rcases hs : s.signal_doc with _ | d
    · rw [hs] at hh
      simp at hh
    · have hz : ¬(h0 = 0) := by omega
      simp only [hs, hz, if_false]
      refine ⟨?_, by trivial, by trivial, by trivial⟩
      rw [hh.2.2.2]
      exact Finset.erase_singleton h0

theorem update_doc_handler_inv (doc : Option Nat) (s : HelperDocState)
    (h : Inv s) : Inv (update_doc_handler doc s) := by
  have hc := disconnect_doc_clears s h
  unfold update_doc_handler
  rcases doc with _ | d
  · refine ⟨?_, ?_⟩
    · rw [hc.2.2.1]
      exact h.1
    · rw [hc.2.1]
      exact hc.1
  · refine ⟨?_, ?_⟩
    · show 1 ≤ (disconnect_doc s).next + 1
      omega
    · show 1 ≤ (disconnect_doc s).next ∧
        (disconnect_doc s).next < (disconnect_doc s).next + 1 ∧
        (some d).isSome = true ∧
        insert (disconnect_doc s).next (disconnect_doc s).connected =
          {(disconnect_doc s).next}
      refine ⟨?_, by omega, rfl, ?_⟩
      · rw [hc.2.2.1]
        exact h.1
      · rw [hc.1]
        rfl

theorem update_ui_inv (doc : Option Nat) (s : HelperDocState) (h : Inv s) :
    Inv (update_ui doc s) := by
  simp only [update_ui]
  split_ifs <;> first
    | exact update_doc_handler_inv doc _ h
    | exact h

theorem inv_card_le_one (s : HelperDocState) (h : Inv s) :
    s.connected.card ≤ 1 := by
  rcases h with ⟨_, hh⟩
  rcases hd : s.doc_signal_handler with _ | h0 <;> rw [hd] at hh
  · rw [hh]
    simp
  · rw [hh.2.2.2]
    simp

theorem deactivate_clears (s : HelperDocState) (h : Inv s) :
    (deactivate s).connected = ∅ :=
  (disconnect_doc_clears s h).1

end V1

/-- Concrete fixture: a tree view inside the side pane. -/
def tvW : Widget := .node "GtkTreeView" true false true true false false []

/-- Concrete fixture: an embedded `vte.Terminal`. -/
def termW : Widget := .node "VteTerminal" false false true true true true []

/-- Concrete fixture: a side-pane `gtk.Notebook` holding the tree view
and the terminal. -/
def nbW : Widget :=
  .node "GtkNotebook" true true true true false false [tvW, termW]

/-- Concrete fixture: the editor's own document notebook, whose type name
contains `GeditNotebook`. -/
def geditNbW : Widget :=
  .node "GeditNotebook" true true true true false false []

/-- Concrete fixture: a Gedit window holding both notebooks. -/
def winW : Widget :=
  .node "GeditWindow" true false false false false false [nbW, geditNbW]

/-- Concrete fixture: the `'text'` style of a color scheme. -/
def styleW : Style :=
  { foreground_set := true, foreground := some "#111111",
    background_set := true, background := some "#eeeeee" }

/-- Concrete fixture: a color scheme with a `'text'` style. -/
def schemeW : StyleScheme := { text_style := some styleW }

/-- Concrete fixture: a GConf tree with a scheme name, fonts and Gnome
Terminal profile colors. -/
def gconfW : GConfClient :=
  { bools := fun k =>
      k == "/apps/gedit-2/preferences/editor/font/use_default_font",
    strings := fun k =>
      if k = "/apps/gedit-2/preferences/editor/colors/scheme" then
        some "oblivion"
      else if k = "/desktop/gnome/interface/monospace_font_name" then
        some "Monospace 10"
      else if k = "/apps/gedit-2/preferences/editor/font/editor_font" then
        some "Consolas 11"
      else if k = "/apps/gnome-terminal/profiles/Default/foreground_color" then
        some "#aaaaaa"
      else if k = "/apps/gnome-terminal/profiles/Default/background_color" then
        some "#bbbbbb"
      else none }

/-- Concrete fixture: an environment whose scheme manager knows the
`'oblivion'` scheme. -/
def envW : Env :=
  { gconf := gconfW,
    schemes := fun n => if n = "oblivion" then some schemeW else none,
    style_text := fun _ => "styletext",
    style_base := fun _ => "stylebase",
    term_attr_colors := fun _ => none }

/-- Concrete fixture: a world with unmodified widgets, a terminal with
its stock colors and font, and empty plugin dictionaries. -/
def sW : World :=
  { text_mod := fun _ => none, base_mod := fun _ => none,
    term_fg := fun _ => "origfg", term_bg := fun _ => "origbg",
    term_font := fun _ => some "OrigFont 9",
    terminal_colors := fun _ => none, terminal_font := fun _ => none }

/-- Concrete fixture: `sW` with originals already recorded for the
terminal. -/
def sW2 : World :=
  { sW with
    terminal_colors :=
      Function.update sW.terminal_colors termW (some (some "x", some "y")),
    terminal_font :=
      Function.update sW.terminal_font termW (some (some "FirstFont 8")) }

/-- Concrete fixture: an activated helper for `winW`. -/
def helperW : HelperState :=
  { window := winW, window_style_handler := some 1,
    handlers_per_notebook := [(nbW, 2)], notebooks := [nbW] }

/-- Concrete fixture: a plugin owning only `helperW`. -/
def pW : PluginState :=
  { instances := [helperW], gconf_client := true, gconf_cnxn := some 3 }

/-- Concrete fixture: a second window, with no panes. -/
def winW2 : Widget :=
  .node "GeditWindow" true false false false false false []

/-- Concrete fixture: an activated helper for `winW2`. -/
def helperW2 : HelperState :=
  { window := winW2, window_style_handler := some 4,
    handlers_per_notebook := [], notebooks := [] }

/-- Concrete fixture: a plugin owning two helpers. -/
def pW2 : PluginState :=
  { instances := [helperW, helperW2], gconf_client := true,
    gconf_cnxn := some 3 }

/-- C1: every widget collected from the pane notebooks receives via
`modify_text`/`modify_base` exactly the foreground and background colors
that `_get_gedit_scheme_colors` pulls from the `'text'` style of the
active scheme (`none` for an unset color), and every collected terminal
receives those same colors, falling back to the terminal's current style
text/base colors when the scheme colors are `none`. -/
theorem update_pane_colors_matches_scheme (env : Env) (nbs : List Widget)
    (s : World) :
    (∀ x ∈ widgets_of nbs,
      (update_pane_colors env nbs s).text_mod x =
        (get_gedit_scheme_colors env).1 ∧
      (update_pane_colors env nbs s).base_mod x =
        (get_gedit_scheme_colors env).2) ∧
    (∀ t ∈ terminals_of nbs,
      (update_pane_colors env nbs s).term_fg t =
        (get_gedit_scheme_colors env).1.getD (env.style_text t) ∧
      (update_pane_colors env nbs s).term_bg t =
        (get_gedit_scheme_colors env).2.getD (env.style_base t)) := by
  constructor
  · intro x hx
    exact update_establishes_widget env nbs s x hx
  · intro t ht
    exact update_establishes_terminal env nbs s t ht

/-- Witness for C1 at a concrete notebook tree, scheme and world. -/
theorem update_pane_colors_matches_scheme_witness :
    (tvW ∈ widgets_of [nbW] ∧
      (update_pane_colors envW [nbW] sW).text_mod tvW =
        (get_gedit_scheme_colors envW).1) ∧
    (termW ∈ terminals_of [nbW] ∧
      (update_pane_colors envW [nbW] sW).term_fg termW =
        (get_gedit_scheme_colors envW).1.getD (envW.style_text termW)) :=
  ⟨⟨by decide,
    ((update_pane_colors_matches_scheme envW [nbW] sW).1 tvW (by decide)).1⟩,
   ⟨by decide,
    ((update_pane_colors_matches_scheme envW [nbW] sW).2 termW (by decide)).1⟩⟩

/-- C2: deactivating restores the original state — restoring after an
update resets every collected widget's `modify_text`/`modify_base` to
`None` (hence back to its pre-activation unmodified state), and puts
every collected terminal's foreground, background and font back to the
recorded originals whenever actual originals were recorded; the same
holds through a full `activate`-then-`deactivate` helper cycle. -/
theorem deactivate_restores_original_state (env : Env) (nbs : List Widget)
    (s : World) :
    (∀ x ∈ widgets_of nbs,
      (restore_pane_colors nbs (update_pane_colors env nbs s)).text_mod x =
        none ∧
      (restore_pane_colors nbs (update_pane_colors env nbs s)).base_mod x =
        none) ∧
    (∀ x ∈ widgets_of nbs, s.text_mod x = none → s.base_mod x = none →
      (restore_pane_colors nbs (update_pane_colors env nbs s)).text_mod x =
        s.text_mod x ∧
      (restore_pane_colors nbs (update_pane_colors env nbs s)).base_mod x =
        s.base_mod x) ∧
    (∀ t ∈ terminals_of nbs, ∀ f b : Color,
      (update_pane_colors env nbs s).terminal_colors t =
          some (some f, some b) →
      (restore_pane_colors nbs (update_pane_colors env nbs s)).term_fg t =
          f ∧
      (restore_pane_colors nbs (update_pane_colors env nbs s)).term_bg t =
          b) ∧
    (∀ t ∈ terminals_of nbs, ∀ fs : String,
      (update_pane_colors env nbs s).terminal_font t = some (some fs) →
      fs ≠ "" →
      (restore_pane_colors nbs (update_pane_colors env nbs s)).term_font t =
        some fs) ∧
    (∀ (window : Widget) (σ : SigState), ∀ x ∈ widgets_of (get_notebooks window),
      s.text_mod x = none → s.base_mod x = none →
      (helper_deactivate (helper_activate env window σ s).1
          (helper_activate env window σ s).2.1
          (helper_activate env window σ s).2.2).2.text_mod x =
        s.text_mod x ∧
      (helper_deactivate (helper_activate env window σ s).1
          (helper_activate env window σ s).2.1
          (helper_activate env window σ s).2.2).2.base_mod x =
        s.base_mod x) := by
  refine ⟨?_, ?_, ?_, ?_, ?_⟩
  · intro x hx
    constructor
    · rw [restore_pane_colors_text_mod]
      simp [hx]
    · rw [restore_pane_colors_base_mod]
      simp [hx]
  · intro x hx ht hb
    rw [ht, hb]
    constructor
    · rw [restore_pane_colors_text_mod]
      simp [hx]
    · rw [restore_pane_colors_base_mod]
      simp [hx]
  · intro t ht f b hstored
    constructor
    · rw [restore_pane_colors_term_fg]
      simp only [ht, if_true]
      unfold restored_fg
      rw [hstored]
    · rw [restore_pane_colors_term_bg]
      simp only [ht, if_true]
      unfold restored_bg
      rw [hstored]
  · intro t ht fs hstored hfs
    rw [restore_pane_colors_term_font]
    simp only [ht, if_true]
    unfold restored_font
    rw [hstored]
    simp [hfs]
  · intro window σ x hx htm hbm
    show (restore_pane_colors (get_notebooks window)
        (update_pane_colors env (get_notebooks window) s)).text_mod x =
      s.text_mod x ∧
      (restore_pane_colors (get_notebooks window)
        (update_pane_colors env (get_notebooks window) s)).base_mod x =
      s.base_mod x
    rw [htm, hbm]
    constructor
    · rw [restore_pane_colors_text_mod]
      simp [hx]
    · rw [restore_pane_colors_base_mod]
      simp [hx]

/-- Witness for C2 at a concrete tree, scheme and world. -/
theorem deactivate_restores_original_state_witness :
    ((restore_pane_colors [nbW]
        (update_pane_colors envW [nbW] sW)).text_mod tvW = none) ∧
    ((update_pane_colors envW [nbW] sW).terminal_colors termW =
        some (some "#aaaaaa", some "#bbbbbb") ∧
      (restore_pane_colors [nbW]
        (update_pane_colors envW [nbW] sW)).term_fg termW = "#aaaaaa") ∧
    ((update_pane_colors envW [nbW] sW).terminal_font termW =
        some (some "OrigFont 9") ∧
      (restore_pane_colors [nbW]
        (update_pane_colors envW [nbW] sW)).term_font termW =
        some "OrigFont 9") ∧
    ((helper_deactivate (helper_activate envW winW ⟨∅, 1⟩ sW).1
        (helper_activate envW winW ⟨∅, 1⟩ sW).2.1
        (helper_activate envW winW ⟨∅, 1⟩ sW).2.2).2.text_mod tvW =
      sW.text_mod tvW) :=
  ⟨((deactivate_restores_original_state envW [nbW] sW).1 tvW (by decide)).1,
   ⟨by decide,
    ((deactivate_restores_original_state envW [nbW] sW).2.2.1 termW
      (by decide) "#aaaaaa" "#bbbbbb" (by decide)).1⟩,
   ⟨by decide,
    (deactivate_restores_original_state envW [nbW] sW).2.2.2.1 termW
      (by decide) "OrigFont 9" (by decide) (by decide)⟩,
   ((deactivate_restores_original_state envW [nbW] sW).2.2.2.2 winW ⟨∅, 1⟩
      tvW (by decide) (by decide) (by decide)).1⟩

/-- C3: for every widget tree, `_get_widgets_to_color` returns exactly
the reachable widgets (root included) supporting both `modify_text` and
`modify_base`, and `_get_terminals` returns exactly the reachable
widgets supporting both `set_color_foreground` and
`set_color_background`. -/
theorem widget_search_complete (nb x : Widget) :
    (x ∈ get_widgets_to_color nb ↔
      x ∈ reachable nb ∧ x.has_modify_text = true ∧
        x.has_modify_base = true) ∧
    (x ∈ get_terminals nb ↔
      x ∈ reachable nb ∧ x.has_set_color_foreground = true ∧
        x.has_set_color_background = true) :=
  ⟨mem_get_widgets_to_color nb x, mem_get_terminals nb x⟩

/-- C4: each change notification — Gedit preferences change (GConf),
window `'style-set'` (desktop theme), notebook `'page-added'` (panel
contents) — reapplies the pane colors: after `on_gedit_prefs_changed`
every window's collected widgets and terminals carry the scheme colors,
and after `on_style_set` / `on_page_added` the affected window's do. -/
theorem change_callbacks_reapply_colors (env : Env) (p : PluginState)
    (w : World) (helper : HelperState) :
    (helper ∈ p.instances →
      (∀ x ∈ widgets_of helper.notebooks,
        widget_colored env (on_gedit_prefs_changed env p w) x) ∧
      (∀ t ∈ terminals_of helper.notebooks,
        terminal_colored env (on_gedit_prefs_changed env p w) t)) ∧
    (∀ x ∈ widgets_of helper.notebooks,
      widget_colored env (on_style_set env helper w).1 x) ∧
    (∀ t ∈ terminals_of helper.notebooks,
      terminal_colored env (on_style_set env helper w).1 t) ∧
    (∀ x ∈ widgets_of helper.notebooks,
      widget_colored env (on_page_added env helper w) x) ∧
    (∀ t ∈ terminals_of helper.notebooks,
      terminal_colored env (on_page_added env helper w) t) := by
  refine ⟨?_, ?_, ?_, ?_, ?_⟩
  · intro hm
    exact fold_instances_colored env p.instances w helper hm
  · intro x hx
    exact update_establishes_widget env helper.notebooks w x hx
  · intro t ht
    exact update_establishes_terminal env helper.notebooks w t ht
  · intro x hx
    exact update_establishes_widget env helper.notebooks w x hx
  · intro t ht
    exact update_establishes_terminal env helper.notebooks w t ht

/-- Witness for C4 at a concrete plugin with one window. -/
theorem change_callbacks_reapply_colors_witness :
    widget_colored envW (on_gedit_prefs_changed envW pW sW) tvW ∧
    terminal_colored envW (on_style_set envW helperW sW).1 termW ∧
    widget_colored envW (on_page_added envW helperW sW) tvW :=
  ⟨((change_callbacks_reapply_colors envW pW sW helperW).1
      (List.mem_singleton.mpr rfl)).1 tvW (by decide),
   (change_callbacks_reapply_colors envW pW sW helperW).2.2.1 termW
      (by decide),
   (change_callbacks_reapply_colors envW pW sW helperW).2.2.2.1 tvW
      (by decide)⟩

/-- C5: starting from a plugin with no windows, activating a window and
then deactivating it removes every handler the plugin connected: the
signal state returns to exactly its initial connections, the window's
`'style-set'` handler and every notebook `'page-added'` handler are
disconnected, and — the window being the last one — the GConf
notification is removed and forgotten. -/
theorem teardown_disconnects_all_handlers (env : Env) (window : Widget)
    (σ : SigState) (w : World) (hσ : SigOk σ)
    (a : PluginState × SigState × World)
    (ha : a = plugin_activate env ⟨[], false, none⟩ window σ w)
    (d : PluginState × SigState × World)
    (hd : d = plugin_deactivate a.1 window a.2.1 a.2.2) :
    d.1.instances = [] ∧ d.1.gconf_client = false ∧
      d.1.gconf_cnxn = none ∧ d.2.1.connected = σ.connected ∧
      (∀ helper ∈ a.1.instances, ∀ hid,
        helper.window_style_handler = some hid → hid ∉ d.2.1.connected) ∧
      (∀ helper ∈ a.1.instances, ∀ pr ∈ helper.handlers_per_notebook,
        pr.2 ∉ d.2.1.connected) ∧
      (∀ g, a.1.gconf_cnxn = some g → g ∉ d.2.1.connected) := by
  have base := plugin_roundtrip env window σ w hσ a ha d hd
  have hcon := base.2.2.2
  subst hd
  subst ha
  have hai : (plugin_activate env ⟨[], false, none⟩ window σ w).1.instances =
      [(helper_activate env window
        ⟨insert σ.next σ.connected, σ.next + 1⟩ w).1] := by
    simp [plugin_activate, connect_gconf, SigState.connect]
  have hgc : (plugin_activate env ⟨[], false, none⟩ window σ w).1.gconf_cnxn =
      some σ.next := by
    simp [plugin_activate, connect_gconf, SigState.connect]
  refine ⟨base.1, base.2.1, base.2.2.1, hcon, ?_, ?_, ?_⟩
  · intro helper hm hid hh
    rw [hai] at hm
    have hm' := List.mem_singleton.mp hm
    subst hm'
    have hh' : some (σ.next + 1) = some hid := hh
    injection hh' with hh2
    rw [hcon, ← hh2]
    intro hmem
    have := hσ.2 _ hmem
    omega
  · intro helper hm pr hpr
    rw [hai] at hm
    have hm' := List.mem_singleton.mp hm
    subst hm'
    have hpr' : pr ∈ (connect_notebooks (get_notebooks window)
        ⟨insert (σ.next + 1) (insert σ.next σ.connected), σ.next + 1 + 1⟩).1 :=
      hpr
    have hh2 : pr.2 ∈ ((connect_notebooks (get_notebooks window)
        ⟨insert (σ.next + 1) (insert σ.next σ.connected),
          σ.next + 1 + 1⟩).1).map Prod.snd :=
      List.mem_map_of_mem Prod.snd hpr'
    rw [connect_notebooks_ids] at hh2
    have hlow : σ.next + 1 + 1 ≤ pr.2 := hh2.1
    rw [hcon]
    intro hmem
    have := hσ.2 _ hmem
    omega
  · intro g hg
    rw [hgc] at hg
    injection hg with hg2
    rw [hcon, ← hg2]
    intro hmem
    have := hσ.2 _ hmem
    omega

/-- Witness for C5 at a concrete window and an empty signal state. -/
theorem teardown_disconnects_all_handlers_witness :
    (plugin_deactivate
      (plugin_activate envW ⟨[], false, none⟩ winW ⟨∅, 1⟩ sW).1 winW
      (plugin_activate envW ⟨[], false, none⟩ winW ⟨∅, 1⟩ sW).2.1
      (plugin_activate envW ⟨[], false, none⟩ winW ⟨∅, 1⟩
        sW).2.2).1.gconf_cnxn = none ∧
    (plugin_deactivate
      (plugin_activate envW ⟨[], false, none⟩ winW ⟨∅, 1⟩ sW).1 winW
      (plugin_activate envW ⟨[], false, none⟩ winW ⟨∅, 1⟩ sW).2.1
      (plugin_activate envW ⟨[], false, none⟩ winW ⟨∅, 1⟩
        sW).2.2).2.1.connected = (⟨∅, 1⟩ : SigState).connected := by
  have h := teardown_disconnects_all_handlers envW winW ⟨∅, 1⟩ sW
    ⟨le_refl 1, fun i hi => absurd hi (Finset.not_mem_empty i)⟩ _ rfl _ rfl
  exact ⟨h.2.2.1, h.2.2.2.1⟩

/-- C6: the three recursive tree walks terminate on every finite widget
tree — with any fuel bound of at least the tree's depth, the
fuel-bounded variants finish (never exhaust the fuel) and agree with the
recursive functions. -/
theorem tree_walks_terminate (w : Widget) (fuel : Nat)
    (h : depth w ≤ fuel) :
    get_notebooks_fuel fuel w = some (get_notebooks w) ∧
    get_widgets_to_color_fuel fuel w = some (get_widgets_to_color w) ∧
    get_terminals_fuel fuel w = some (get_terminals w) :=
  ⟨get_notebooks_fuel_eq fuel w h, get_widgets_to_color_fuel_eq fuel w h,
   get_terminals_fuel_eq fuel w h⟩

/-- Witness for C6 at a concrete window tree of depth 3. -/
theorem tree_walks_terminate_witness :
    get_notebooks_fuel 3 winW = some (get_notebooks winW) ∧
    get_widgets_to_color_fuel 3 winW = some (get_widgets_to_color winW) ∧
    get_terminals_fuel 3 winW = some (get_terminals winW) :=
  tree_walks_terminate winW 3 (by decide)

/-- C7: in the document-based lifecycle of version 1.6.0 at most one
document signal handler is connected at any time — the invariant holds
initially, is preserved by every `update_ui` (connecting to a new
document first disconnects the old handler), bounds the live connections
by one, and `deactivate` disconnects any remaining handler. -/
theorem single_doc_handler_invariant :
    V1.Inv V1.init ∧
    (∀ (doc : Option Nat) (s : V1.HelperDocState), V1.Inv s →
      V1.Inv (V1.update_ui doc s)) ∧
    (∀ (doc : Option Nat) (s : V1.HelperDocState), V1.Inv s →
      (V1.update_ui doc s).connected.card ≤ 1) ∧
    (∀ s : V1.HelperDocState, V1.Inv s → s.connected.card ≤ 1) ∧
    (∀ s : V1.HelperDocState, V1.Inv s → (V1.deactivate s).connected = ∅) :=
  ⟨V1.init_inv,
   fun doc s h => V1.update_ui_inv doc s h,
   fun doc s h => V1.inv_card_le_one _ (V1.update_ui_inv doc s h),
   fun s h => V1.inv_card_le_one s h,
   fun s h => V1.deactivate_clears s h⟩

/-- Witness for C7 at the initial state and a concrete document. -/
theorem single_doc_handler_invariant_witness :
    V1.Inv (V1.update_ui (some 7) V1.init) ∧
    (V1.update_ui (some 7) V1.init).connected.card ≤ 1 ∧
    (V1.deactivate V1.init).connected = ∅ :=
  ⟨single_doc_handler_invariant.2.1 (some 7) V1.init
     single_doc_handler_invariant.1,
   single_doc_handler_invariant.2.2.1 (some 7) V1.init
     single_doc_handler_invariant.1,
   single_doc_handler_invariant.2.2.2.2 V1.init
     single_doc_handler_invariant.1⟩

/-- C8: on a tree whose notebooks are containers, `_get_notebooks`
returns exactly the reachable `gtk.Notebook`s whose type name does not
contain `'GeditNotebook'` — the editor's own document notebook is always
excluded, every other notebook included. -/
theorem gedit_notebook_excluded (w x : Widget)
    (hWF : notebooks_have_children w) :
    x ∈ get_notebooks w ↔
      x ∈ reachable w ∧ x.is_notebook = true ∧
        named_gedit_notebook x = false :=
  mem_get_notebooks w x hWF

/-- Witness for C8: the side pane notebook is found, the GeditNotebook
is excluded. -/
theorem gedit_notebook_excluded_witness :
    nbW ∈ get_notebooks winW ∧ geditNbW ∉ get_notebooks winW := by
  have hWF : notebooks_have_children winW := by
    unfold notebooks_have_children
    decide
  constructor
  · exact (gedit_notebook_excluded winW nbW hWF).mpr (by decide)
  · intro hmem
    have h := (gedit_notebook_excluded winW geditNbW hWF).mp hmem
    exact absurd h.2.2 (by decide)

/-- C9: a terminal's original colors and font are recorded at most once —
`update_pane_colors` never overwrites an existing `terminal_colors` or
`terminal_font` entry, creates one only for a terminal without one, and
the stored originals survive a window's deactivation, being cleared only
when the last window is deactivated. -/
theorem originals_recorded_once (env : Env) (nbs : List Widget) (s : World)
    (t : Widget) :
    (∀ v, s.terminal_colors t = some v →
      (update_pane_colors env nbs s).terminal_colors t = some v) ∧
    (∀ v, s.terminal_font t = some v →
      (update_pane_colors env nbs s).terminal_font t = some v) ∧
    (t ∈ terminals_of nbs → s.terminal_colors t = none →
      (update_pane_colors env nbs s).terminal_colors t =
        some (store_terminal_colors_val env t)) ∧
    (t ∈ terminals_of nbs → s.terminal_font t = none →
      (update_pane_colors env nbs s).terminal_font t =
        some (s.term_font t)) ∧
    (∀ (p : PluginState) (window : Widget) (σ : SigState) (w : World)
        (helper : HelperState),
      p.instances.find? (fun h => decide (h.window = window)) =
          some helper →
      (((p.instances.eraseP (fun h => decide (h.window = window))).isEmpty =
          false →
        (plugin_deactivate p window σ w).2.2.terminal_colors =
          w.terminal_colors ∧
        (plugin_deactivate p window σ w).2.2.terminal_font =
          w.terminal_font) ∧
       ((p.instances.eraseP (fun h => decide (h.window = window))).isEmpty =
          true →
        (plugin_deactivate p window σ w).2.2.terminal_colors =
          (fun _ => none) ∧
        (plugin_deactivate p window σ w).2.2.terminal_font =
          (fun _ => none)))) := by
  refine ⟨?_, ?_, ?_, ?_, ?_⟩
  · intro v hv
    rw [update_pane_colors_terminal_colors]
    split_ifs <;> simp [hv]
  · intro v hv
    rw [update_pane_colors_terminal_font]
    split_ifs <;> simp [hv]
  · intro ht hv
    rw [update_pane_colors_terminal_colors]
    simp [ht, hv]
  · intro ht hv
    rw [update_pane_colors_terminal_font]
    simp [ht, hv]
  · intro p window σ w helper hfind
    have h := plugin_deactivate_dicts p window σ w helper hfind _ rfl
    exact ⟨fun hf => ⟨(h.2 hf).2.1, (h.2 hf).2.2⟩,
           fun htr => ⟨(h.1 htr).2.1, (h.1 htr).2.2⟩⟩

/-- Witness for C9: an existing record survives a recoloring, a first
record is created, and deactivating a non-last window keeps the records
while deactivating the last clears them. -/
theorem originals_recorded_once_witness :
    (sW2.terminal_colors termW = some (some "x", some "y") ∧
      (update_pane_colors envW [nbW] sW2).terminal_colors termW =
        some (some "x", some "y")) ∧
    (termW ∈ terminals_of [nbW] ∧
      (update_pane_colors envW [nbW] sW).terminal_colors termW =
        some (store_terminal_colors_val envW termW)) ∧
    ((plugin_deactivate pW2 winW ⟨∅, 10⟩ sW).2.2.terminal_colors =
      sW.terminal_colors) ∧
    ((plugin_deactivate pW winW ⟨∅, 10⟩ sW).2.2.terminal_colors =
      (fun _ => none)) := by
  refine ⟨⟨by decide, ?_⟩, ⟨by decide, ?_⟩, ?_, ?_⟩
  · exact (originals_recorded_once envW [nbW] sW2 termW).1
      (some "x", some "y") (by decide)
  · exact (originals_recorded_once envW [nbW] sW termW).2.2.1 (by decide)
      (by decide)
  · exact (((originals_recorded_once envW [nbW] sW termW).2.2.2.2 pW2 winW
      ⟨∅, 10⟩ sW helperW rfl).1 rfl).1
  · exact (((originals_recorded_once envW [nbW] sW termW).2.2.2.2 pW winW
      ⟨∅, 10⟩ sW helperW rfl).2 rfl).1

/-- C10: `_get_gedit_font` returns the desktop monospace font when the
Gedit `use_default_font` preference is set and the Gedit `editor_font`
preference otherwise, and this is exactly the font string
`update_pane_colors` applies to every collected terminal. -/
theorem gedit_font_selection (c : GConfClient) (env : Env)
    (nbs : List Widget) (s : World) (t : Widget) :
    (c.bools "/apps/gedit-2/preferences/editor/font/use_default_font" =
        true →
      get_gedit_font c =
        c.strings "/desktop/gnome/interface/monospace_font_name") ∧
    (c.bools "/apps/gedit-2/preferences/editor/font/use_default_font" =
        false →
      get_gedit_font c =
        c.strings "/apps/gedit-2/preferences/editor/font/editor_font") ∧
    (t ∈ terminals_of nbs →
      (update_pane_colors env nbs s).term_font t =
        get_gedit_font env.gconf) := by
  refine ⟨?_, ?_, ?_⟩
  · intro h
    unfold get_gedit_font
    simp [h]
  · intro h
    unfold get_gedit_font
    simp [h]
  · intro ht
    rw [update_pane_colors_term_font]
    simp [ht]

/-- Witness for C10 at the concrete GConf tree (system font on) and the
concrete terminal. -/
theorem gedit_font_selection_witness :
    (gconfW.bools "/apps/gedit-2/preferences/editor/font/use_default_font" =
        true ∧
      get_gedit_font gconfW = some "Monospace 10") ∧
    (termW ∈ terminals_of [nbW] ∧
      (update_pane_colors envW [nbW] sW).term_font termW =
        get_gedit_font envW.gconf) := by
  refine ⟨⟨by decide, ?_⟩, ⟨by decide, ?_⟩⟩
  · have h := (gedit_font_selection gconfW envW [nbW] sW termW).1 (by decide)
    rw [h]
    decide
  · exact (gedit_font_selection gconfW envW [nbW] sW termW).2.2 (by decide)
